import Mathlib

/-!
# triagectl: collection orchestration, aggregation and collector filtering

A shallow embedding of `cmd/triagectl/main.go`.

* Go strings are lists of code points.
* A Go `error` value is `Option GoString` (`none` is `nil`).
* Go `int` counters that only count list elements are natural numbers.
* The goroutines of `main` are a labelled step function on an explicit state; an
  interleaving is a list of actions that the step function accepts one after another.
* Two such models are given. `step` has the moves that decide which results are
  produced. `timedStep` is finer: it has the clock, the making of each unit's context,
  the receive of the result loop apart from its body, and a call to `Collect` that
  panics; what is said of the running progress state and of deadlines is proved on it.
-/

namespace Triagectl

/-! ## Data model -/

/-- Go string: a sequence of code points. -/
abbrev GoString := List Char

/-- Modelled from the spec: `models.Artifact` is declared outside `cmd/triagectl`; the spec
lists an originating collector ID, a kind, a source locator, a capture timestamp, a payload,
an integer risk score and the findings attached by analyzers. -/
structure Artifact where
  CollectorID : GoString
  Kind : GoString
  Source : GoString
  Timestamp : Int
  Payload : GoString
  RiskScore : Int
  Findings : List GoString
deriving DecidableEq, Repr

/-- The value `models.CollectionResult` built by a collector unit (main.go, lines 143-149). -/
structure CollectionResult where
  CollectorID : GoString
  Artifacts : List Artifact
  Error : Option GoString
  Duration : Int
  StartedAt : Int
deriving DecidableEq, Repr

/-- The metadata methods of the `collectors.Collector` interface (`ID()`, `Name()`,
`Description()`, `RequiresRoot()`). The `Collect` method is the environment's move in the
orchestration model below. -/
structure Collector where
  ID : GoString
  Name : GoString
  Description : GoString
  RequiresRoot : Bool
deriving DecidableEq, Repr

/-- A call received by the progress tracker. -/
inductive TrackerCall where
  | Start (name : GoString)
  | Success (id : GoString) (count : Nat)
  | Fail (id : GoString) (err : GoString)
  | Finish
deriving DecidableEq, Repr

/-! ## The result loop of `main` (lines 160-184) -/

/-- The locals of `main` written by the result loop, with the log of tracker calls. -/
structure MainState where
  tracker : List TrackerCall
  allArtifacts : List Artifact
  allResults : List CollectionResult
  totalArtifacts : Nat
  successfulCollectors : Nat
  failedCollectors : Nat
deriving DecidableEq, Repr

/-- Lines 161-165: the locals before the loop. -/
def MainState.init : MainState :=
  { tracker := [], allArtifacts := [], allResults := [], totalArtifacts := 0,
    successfulCollectors := 0, failedCollectors := 0 }

/-- One iteration of `for result := range resultsCh` (lines 168-183). -/
def processResult (m : MainState) (result : CollectionResult) : MainState :=
  let m := { m with allResults := m.allResults ++ [result] }
  match result.Error with
  | some err =>
    { m with tracker := m.tracker ++ [TrackerCall.Fail result.CollectorID err],
             failedCollectors := m.failedCollectors + 1 }
  | none =>
    if result.Artifacts.length > 0 then
      { m with allArtifacts := m.allArtifacts ++ result.Artifacts,
               totalArtifacts := m.totalArtifacts + result.Artifacts.length,
               tracker := m.tracker ++
                 [TrackerCall.Success result.CollectorID result.Artifacts.length],
               successfulCollectors := m.successfulCollectors + 1 }
    else
      { m with tracker := m.tracker ++ [TrackerCall.Success result.CollectorID 0],
               successfulCollectors := m.successfulCollectors + 1 }

/-- The whole result loop over the results in arrival order. -/
def resultLoop (results : List CollectionResult) : MainState :=
  results.foldl processResult MainState.init

/-- The counters of `main` agree with the results recorded so far. -/
def AggOK (m : MainState) : Prop :=
  m.failedCollectors = m.allResults.countP (fun r => r.Error.isSome) ∧
  m.successfulCollectors = m.allResults.countP (fun r => r.Error.isNone) ∧
  m.totalArtifacts =
    ((m.allResults.filter (fun r => r.Error.isNone)).map (fun r => r.Artifacts.length)).sum ∧
  m.allArtifacts =
    ((m.allResults.filter (fun r => r.Error.isNone)).map (fun r => r.Artifacts)).flatten

/-- A result without error and one with an error that still carries an artifact. -/
def sampleResults : List CollectionResult :=
  [ { CollectorID := "net".toList,
      Artifacts := [ { CollectorID := "net".toList, Kind := "socket".toList,
                       Source := "tcp".toList, Timestamp := 1, Payload := "1.2.3.4".toList,
                       RiskScore := 0, Findings := [] } ],
      Error := none, Duration := 5, StartedAt := 0 },
    { CollectorID := "proc".toList,
      Artifacts := [ { CollectorID := "proc".toList, Kind := "process".toList,
                       Source := "pid 1".toList, Timestamp := 2, Payload := "init".toList,
                       RiskScore := 0, Findings := [] } ],
      Error := some "context deadline exceeded".toList, Duration := 9, StartedAt := 1 } ]

/-! ## Findings count and summary (lines 198-239) -/

/-- Lines 199-204: the counting loop over the analyzed artifacts. -/
def findingsCount (allArtifacts : List Artifact) : Nat :=
  allArtifacts.foldl (fun n a => if a.RiskScore ≥ 40 then n + 1 else n) 0

/-- A line of the collection summary (lines 233-239). -/
inductive SummaryLine where
  | TotalArtifacts (n : Nat)
  | SuccessfulCollectors (n : Nat)
  | FailedCollectors (n : Nat)
  | Findings (n : Nat)
deriving DecidableEq, Repr

/-- Lines 233-239: the count lines of the summary, in print order. -/
def summaryLines (m : MainState) (analyzed : List Artifact) : List SummaryLine :=
  [SummaryLine.TotalArtifacts m.totalArtifacts,
   SummaryLine.SuccessfulCollectors m.successfulCollectors,
   SummaryLine.FailedCollectors m.failedCollectors] ++
  (if findingsCount analyzed > 0 then [SummaryLine.Findings (findingsCount analyzed)] else [])

/-! ## `filterCollectors` (lines 277-303) -/

/-- Go `unicode.IsSpace`, the predicate of `strings.TrimSpace`. -/
def IsSpace (c : Char) : Bool :=
  let n := c.toNat
  (9 ≤ n && n ≤ 13) || n == 32 || n == 0x85 || n == 0xA0 || n == 0x1680 ||
  (0x2000 ≤ n && n ≤ 0x200a) || n == 0x2028 || n == 0x2029 || n == 0x202f ||
  n == 0x205f || n == 0x3000

/-- Go `strings.TrimSpace`: white space removed at both ends. -/
def TrimSpace (s : GoString) : GoString :=
  ((s.dropWhile IsSpace).reverse.dropWhile IsSpace).reverse

/-- Go `strings.Split(s, sep)` for a separator of one character: the pieces between
separators, the empty ones included. -/
def Split (s : GoString) (sep : Char) : List GoString :=
  match s with
  | [] => [[]]
  | c :: cs =>
    if c = sep then [] :: Split cs sep
    else
      match Split cs sep with
      | [] => [[c]]
      | t :: ts => (c :: t) :: ts

/-- Lines 282-288: the `allowed` map, as its lookup function (a missing key reads false). -/
def allowedMap (filter : GoString) : GoString → Bool :=
  (Split filter ',').foldl
    (fun allowed id =>
      let id := TrimSpace id
      if id ≠ [] then (fun k => if k = id then true else allowed k) else allowed)
    (fun _ => false)

/-- The warning written to standard error at line 298. -/
def noMatchWarning (filter : GoString) : GoString :=
  "Warning: no collectors matched filter '".toList ++ filter ++ "', running all\n".toList

/-- The function `filterCollectors` of main.go over the registry `collectors.Registry`:
the returned collectors with the lines written to standard error. -/
def filterCollectors (Registry : List Collector) (filter : GoString) :
    List Collector × List GoString :=
  if filter = [] then (Registry, [])
  else
    let allowed := allowedMap filter
    let filtered := Registry.foldl
      (fun filtered c => if allowed c.ID then filtered ++ [c] else filtered) []
    if filtered.length = 0 then (Registry, [noMatchWarning filter])
    else (filtered, [])

/-- The tokens of a filter as the flag describes them: the comma-separated pieces with the
surrounding white space trimmed, the empty ones ignored. -/
def filterTokens (filter : GoString) : List GoString :=
  ((Split filter ',').map TrimSpace).filter (fun t => decide (t ≠ []))

/-- A registry of three collectors. -/
def sampleRegistry : List Collector :=
  [ { ID := "net".toList, Name := "Network Connections".toList,
      Description := "Open sockets".toList, RequiresRoot := false },
    { ID := "proc".toList, Name := "Process List".toList,
      Description := "Running processes".toList, RequiresRoot := true },
    { ID := "files".toList, Name := "Recent Files".toList,
      Description := "Recently changed files".toList, RequiresRoot := false } ]

/-! ## The orchestration of `main` (lines 122-186) -/

/-- Where a collector unit (the goroutine of lines 128-152) stands. -/
inductive Phase where
  /-- Line 131: waiting to send on `semaphore`. -/
  | blocked
  /-- A slot is held; `tracker.Start` (line 134) comes next. -/
  | acquired
  /-- The call `tracker.Start(c.Name())` is made and `c.Collect(collectorCtx)` is running. -/
  | started
  /-- The call to `Collect` returned and `result` is built (lines 141-149). -/
  | collected (result : CollectionResult)
  /-- The result is sent on `resultsCh` (line 151); the deferred calls come next. -/
  | sent
  /-- The deferred receive from `semaphore` (line 132) is made; `wg.Done` comes next. -/
  | released
  /-- The deferred `wg.Done` (line 129) is made: the goroutine is over. -/
  | done
deriving DecidableEq, Repr

/-- A collector unit: the goroutine started for one collector. -/
structure CollectorUnit where
  c : Collector
  phase : Phase
deriving DecidableEq, Repr

/-- What the orchestration is run with: `activeCollectors` and `*concurrency`
(`make(chan struct{}, n)` panics on a negative size, so a run has a natural number). -/
structure Config where
  collectors : List Collector
  concurrency : Nat
deriving DecidableEq, Repr

/-- The shared state of the goroutines of `main`. -/
structure State where
  /-- One unit per element of `activeCollectors`, in order. -/
  units : List CollectorUnit
  /-- The number of elements held by the channel `semaphore`. -/
  semaphore : Nat
  /-- The counter of `wg`. -/
  wg : Nat
  /-- The buffer of `resultsCh`, oldest first. -/
  resultsCh : List CollectionResult
  /-- Whether `close(resultsCh)` (line 157) is made. -/
  closed : Bool
  /-- Whether the loop `for result := range resultsCh` is over and `tracker.Finish()` made. -/
  loopDone : Bool
  /-- The locals of the result loop and the tracker log. -/
  main : MainState
deriving DecidableEq, Repr

/-- The state after the launch loop (lines 122-153): every unit is started and waits for
a slot, `wg` counts them all, nothing was sent. -/
def initState (cfg : Config) : State :=
  { units := cfg.collectors.map (fun c => { c := c, phase := Phase.blocked }),
    semaphore := 0, wg := cfg.collectors.length, resultsCh := [], closed := false,
    loopDone := false, main := MainState.init }

/-- What a call `c.Collect(collectorCtx)` returns, with the two clock readings around it. -/
structure CollectReturn where
  Artifacts : List Artifact
  Error : Option GoString
  Duration : Int
  StartedAt : Int
deriving DecidableEq, Repr

/-- The atomic moves of the goroutines: unit `i` is the goroutine of the `i`-th collector. -/
inductive Action where
  /-- Unit `i`: `semaphore <- struct{}{}` (line 131). -/
  | acquire (i : Nat)
  /-- Unit `i`: `tracker.Start(c.Name())` (line 134). -/
  | start (i : Nat)
  /-- Unit `i`: `c.Collect(collectorCtx)` returns `ret`; `result` is built (lines 140-149). -/
  | collect (i : Nat) (ret : CollectReturn)
  /-- Unit `i`: `resultsCh <- result` (line 151). -/
  | send (i : Nat)
  /-- Unit `i`: the deferred `<-semaphore` (line 132). -/
  | release (i : Nat)
  /-- Unit `i`: the deferred `wg.Done()` (line 129). -/
  | done (i : Nat)
  /-- The closer goroutine: `wg.Wait()` returns and `close(resultsCh)` (lines 156-157). -/
  | close
  /-- The result loop receives one result and runs its body (lines 167-184). -/
  | recv
  /-- The result loop ends on the closed, drained channel; `tracker.Finish()` (line 186). -/
  | finish
deriving DecidableEq, Repr

/-- The state with unit `i` replaced by collector `c` in phase `p`. -/
def State.setUnit (s : State) (i : Nat) (c : Collector) (p : Phase) : State :=
  { s with units := s.units.set i { c := c, phase := p } }

/-- One move: `none` when the move is not enabled (the goroutine is elsewhere, or blocks).
A send on `semaphore` needs a free place in its buffer: with capacity 0 it would need a
receiver, and the only receives are the deferred ones of units that have sent already.
The receive of line 167 and the loop body are one move here, and every call to `Collect`
returns; `timedStep` below has them apart and has the panic. -/
def step (cfg : Config) (s : State) : Action → Option State
  | Action.acquire i =>
    match s.units[i]? with
    | some ⟨c, Phase.blocked⟩ =>
      if s.semaphore < cfg.concurrency then
        some { s.setUnit i c Phase.acquired with semaphore := s.semaphore + 1 }
      else none
    | _ => none
  | Action.start i =>
    match s.units[i]? with
    | some ⟨c, Phase.acquired⟩ =>
      some { s.setUnit i c Phase.started with
             main := { s.main with tracker := s.main.tracker ++ [TrackerCall.Start c.Name] } }
    | _ => none
  | Action.collect i ret =>
    match s.units[i]? with
    | some ⟨c, Phase.started⟩ =>
      some (s.setUnit i c (Phase.collected
        { CollectorID := c.ID, Artifacts := ret.Artifacts, Error := ret.Error,
          Duration := ret.Duration, StartedAt := ret.StartedAt }))
    | _ => none
  | Action.send i =>
    match s.units[i]? with
    | some ⟨c, Phase.collected result⟩ =>
      if s.resultsCh.length < cfg.collectors.length then
        some { s.setUnit i c Phase.sent with resultsCh := s.resultsCh ++ [result] }
      else none
    | _ => none
  | Action.release i =>
    match s.units[i]? with
    | some ⟨c, Phase.sent⟩ =>
      if 0 < s.semaphore then
        some { s.setUnit i c Phase.released with semaphore := s.semaphore - 1 }
      else none
    | _ => none
  | Action.done i =>
    match s.units[i]? with
    | some ⟨c, Phase.released⟩ =>
      if 0 < s.wg then some { s.setUnit i c Phase.done with wg := s.wg - 1 } else none
    | _ => none
  | Action.close =>
    if s.wg = 0 ∧ s.closed = false then some { s with closed := true } else none
  | Action.recv =>
    match s.resultsCh with
    | result :: rest =>
      if s.loopDone = false then
        some { s with resultsCh := rest, main := processResult s.main result }
      else none
    | [] => none
  | Action.finish =>
    if s.closed = true ∧ s.resultsCh = [] ∧ s.loopDone = false then
      some { s with loopDone := true,
                    main := { s.main with tracker := s.main.tracker ++ [TrackerCall.Finish] } }
    else none

/-- The moves of `acts` made one after another from `s`, when each is enabled. -/
def run (cfg : Config) (s : State) : List Action → Option State
  | [] => some s
  | a :: acts =>
    match step cfg s a with
    | some s' => run cfg s' acts
    | none => none

/-- An interleaving of the whole orchestration: the moves of `acts` from the initial state. -/
def exec (cfg : Config) (acts : List Action) : Option State :=
  run cfg (initState cfg) acts

/-! ### What is observed of a state -/

/-- The calls `tracker.Start` in a tracker log. -/
def startCalls (log : List TrackerCall) : Nat :=
  log.countP (fun c => match c with | TrackerCall.Start _ => true | _ => false)

/-- The calls `tracker.Success` and `tracker.Fail` in a tracker log. -/
def endCalls (log : List TrackerCall) : Nat :=
  log.countP (fun c => match c with
    | TrackerCall.Success _ _ => true | TrackerCall.Fail _ _ => true | _ => false)

/-- The identifiers given to `tracker.Start`, in call order. -/
def startNames (log : List TrackerCall) : List GoString :=
  log.filterMap (fun c => match c with | TrackerCall.Start name => some name | _ => none)

/-- The identifiers given to `tracker.Success` and `tracker.Fail`, in call order. -/
def endIds (log : List TrackerCall) : List GoString :=
  log.filterMap (fun c => match c with
    | TrackerCall.Success id _ => some id | TrackerCall.Fail id _ => some id | _ => none)

/-- Whether a unit in this phase holds a slot of `semaphore`. -/
def Phase.holdsSlot : Phase → Bool
  | Phase.acquired | Phase.started | Phase.collected _ | Phase.sent => true
  | _ => false

/-- The unit has not sent its result yet. -/
def Phase.unsent : Phase → Bool
  | Phase.blocked | Phase.acquired | Phase.started | Phase.collected _ => true
  | _ => false

/-- The unit has called `tracker.Start`. -/
def Phase.hasStarted : Phase → Bool
  | Phase.blocked | Phase.acquired => false
  | _ => true

/-- The unit is not over: it has not called `wg.Done` yet. -/
def Phase.live : Phase → Bool
  | Phase.done => false
  | _ => true

/-- The unit's call to `Collect` has not returned. -/
def Phase.beforeReturn : Phase → Bool
  | Phase.blocked | Phase.acquired | Phase.started => true
  | _ => false

/-- The moves a unit in this phase still has to make, counting the receive of its result. -/
def Phase.weight : Phase → Nat
  | Phase.blocked => 7
  | Phase.acquired => 6
  | Phase.started => 5
  | Phase.collected _ => 4
  | Phase.sent => 2
  | Phase.released => 1
  | Phase.done => 0

/-- The number of moves left to the orchestration. -/
def movesLeft (s : State) : Nat :=
  (s.units.map (fun u => u.phase.weight)).sum + s.resultsCh.length
    + (if s.closed then 0 else 1) + (if s.loopDone then 0 else 1)

/-! ### The moves as a relation, and the invariants -/

/-- The moves of `step`, each with the unit it moves singled out of the list of units. -/
inductive Moves (cfg : Config) : State → Action → State → Prop where
  | acquire (s : State) (l1 l2 : List CollectorUnit) (c : Collector)
      (hu : s.units = l1 ++ ⟨c, Phase.blocked⟩ :: l2)
      (hs : s.semaphore < cfg.concurrency) :
      Moves cfg s (Action.acquire l1.length)
        { s with units := l1 ++ ⟨c, Phase.acquired⟩ :: l2, semaphore := s.semaphore + 1 }
  | start (s : State) (l1 l2 : List CollectorUnit) (c : Collector)
      (hu : s.units = l1 ++ ⟨c, Phase.acquired⟩ :: l2) :
      Moves cfg s (Action.start l1.length)
        { s with units := l1 ++ ⟨c, Phase.started⟩ :: l2,
                 main := { s.main with
                   tracker := s.main.tracker ++ [TrackerCall.Start c.Name] } }
  | collect (s : State) (l1 l2 : List CollectorUnit) (c : Collector) (ret : CollectReturn)
      (hu : s.units = l1 ++ ⟨c, Phase.started⟩ :: l2) :
      Moves cfg s (Action.collect l1.length ret)
        { s with units := l1 ++ ⟨c, Phase.collected
          { CollectorID := c.ID, Artifacts := ret.Artifacts, Error := ret.Error,
            Duration := ret.Duration, StartedAt := ret.StartedAt }⟩ :: l2 }
  | send (s : State) (l1 l2 : List CollectorUnit) (c : Collector) (r : CollectionResult)
      (hu : s.units = l1 ++ ⟨c, Phase.collected r⟩ :: l2)
      (hcap : s.resultsCh.length < cfg.collectors.length) :
      Moves cfg s (Action.send l1.length)
        { s with units := l1 ++ ⟨c, Phase.sent⟩ :: l2, resultsCh := s.resultsCh ++ [r] }
  | release (s : State) (l1 l2 : List CollectorUnit) (c : Collector)
      (hu : s.units = l1 ++ ⟨c, Phase.sent⟩ :: l2)
      (hs : 0 < s.semaphore) :
      Moves cfg s (Action.release l1.length)
        { s with units := l1 ++ ⟨c, Phase.released⟩ :: l2, semaphore := s.semaphore - 1 }
  | done (s : State) (l1 l2 : List CollectorUnit) (c : Collector)
      (hu : s.units = l1 ++ ⟨c, Phase.released⟩ :: l2)
      (hw : 0 < s.wg) :
      Moves cfg s (Action.done l1.length)
        { s with units := l1 ++ ⟨c, Phase.done⟩ :: l2, wg := s.wg - 1 }
  | close (s : State) (hw : s.wg = 0) (hc : s.closed = false) :
      Moves cfg s Action.close { s with closed := true }
  | recv (s : State) (r : CollectionResult) (rest : List CollectionResult)
      (hch : s.resultsCh = r :: rest) (hl : s.loopDone = false) :
      Moves cfg s Action.recv { s with resultsCh := rest, main := processResult s.main r }
  | finish (s : State) (hc : s.closed = true) (hch : s.resultsCh = [])
      (hl : s.loopDone = false) :
      Moves cfg s Action.finish
        { s with loopDone := true,
                 main := { s.main with tracker := s.main.tracker ++ [TrackerCall.Finish] } }

/-- What holds in every state the orchestration reaches. -/
structure Inv (cfg : Config) (s : State) : Prop where
  collectors : s.units.map (fun u => u.c) = cfg.collectors
  sem : s.semaphore = s.units.countP (fun u => u.phase.holdsSlot)
  semLe : s.semaphore ≤ cfg.concurrency
  wg : s.wg = s.units.countP (fun u => u.phase.live)
  closed : s.closed = true → s.wg = 0
  loopDone : s.loopDone = true → s.closed = true ∧ s.resultsCh = []
  ids : ((s.main.allResults ++ s.resultsCh).map (fun r => r.CollectorID) ++
          (s.units.filter (fun u => u.phase.unsent)).map (fun u => u.c.ID)).Perm
        (s.units.map (fun u => u.c.ID))
  collected : ∀ u ∈ s.units, ∀ r, u.phase = Phase.collected r → r.CollectorID = u.c.ID
  sentCount : s.main.allResults.length + s.resultsCh.length
    = s.units.countP (fun u => !u.phase.unsent)
  starts : startCalls s.main.tracker = s.units.countP (fun u => u.phase.hasStarted)
  ends : endCalls s.main.tracker = s.main.allResults.length
  agg : AggOK s.main

/-- What the tracker log holds in every state the orchestration reaches: the ends are the
IDs of the results received, in order, and the starts are the names of the started units. -/
structure LogInv (s : State) : Prop where
  ends : endIds s.main.tracker = s.main.allResults.map (fun r => r.CollectorID)
  starts : (startNames s.main.tracker).Perm
    ((s.units.filter (fun u => u.phase.hasStarted)).map (fun u => u.c.Name))

/-! ### Sample runs -/

/-- A return of `Collect` without artifacts and without error. -/
def CollectReturn.empty : CollectReturn :=
  { Artifacts := [], Error := none, Duration := 0, StartedAt := 0 }

/-- Two collectors under one slot. -/
def twoConfig : Config :=
  { collectors := sampleRegistry.take 2, concurrency := 1 }

/-- An interleaving of `twoConfig` in which `proc` is started while the result of `net`
still waits in `resultsCh`. -/
def overlapTrace : List Action :=
  [Action.acquire 0, Action.start 0, Action.collect 0 CollectReturn.empty, Action.send 0,
   Action.release 0, Action.acquire 1, Action.start 1]

/-- A run of `twoConfig` to its end: `overlapTrace`, then `proc` fails and all is received. -/
def twoTrace : List Action :=
  overlapTrace ++
  [Action.collect 1 { Artifacts := [], Error := some "context deadline exceeded".toList,
                      Duration := 60, StartedAt := 7 },
   Action.send 1, Action.release 1, Action.done 0, Action.done 1, Action.close,
   Action.recv, Action.recv, Action.finish]

/-- Three collectors and a concurrency of zero (`-concurrency 0`). -/
def zeroConfig : Config :=
  { collectors := sampleRegistry, concurrency := 0 }

/-- The collector `net` alone, under one slot. -/
def oneConfig : Config :=
  { collectors := sampleRegistry.take 1, concurrency := 1 }

/-- The run of `oneConfig` to its end. -/
def oneTrace : List Action :=
  [Action.acquire 0, Action.start 0, Action.collect 0 CollectReturn.empty, Action.send 0,
   Action.release 0, Action.done 0, Action.close, Action.recv, Action.finish]

/-! ## The progress tracker -/

/-- Modelled from the spec: the lifecycle state of one collector in the progress tracker
(`internal/progress` is not part of `cmd/triagectl`): pending, running, succeeded with a
count, failed with a reason. -/
inductive ProgressState where
  | pending
  | running
  | succeeded (count : Nat)
  | failed (reason : GoString)
deriving DecidableEq, Repr

/-- Modelled from the spec: the tracker's record map under one call. `start(id)` moves the
record of `id` from pending to running, `success(id, n)` and `fail(id, reason)` move it from
running to a terminal state, no other transition exists, and `finish()` touches no record. -/
def trackerApply (records : GoString → ProgressState) :
    TrackerCall → GoString → ProgressState
  | TrackerCall.Start id => fun k =>
    if k = id then
      (match records id with
       | ProgressState.pending => ProgressState.running
       | st => st)
    else records k
  | TrackerCall.Success id n => fun k =>
    if k = id then
      (match records id with
       | ProgressState.running => ProgressState.succeeded n
       | st => st)
    else records k
  | TrackerCall.Fail id reason => fun k =>
    if k = id then
      (match records id with
       | ProgressState.running => ProgressState.failed reason
       | st => st)
    else records k
  | TrackerCall.Finish => records

/-- Modelled from the spec: the records of a tracker that received the calls of `log`,
every collector pending at first. -/
def trackerRecords (log : List TrackerCall) : GoString → ProgressState :=
  log.foldl trackerApply (fun _ => ProgressState.pending)

/-! ## Deadlines (lines 115-116 and 136-137) -/

/-- A Go `int64` from an integer: two's complement wrap-around. -/
def wrapInt64 (x : Int) : Int :=
  (x + 2 ^ 63) % 2 ^ 64 - 2 ^ 63

/-- Go `time.Second`, in nanoseconds. -/
def Second : Int := 1000000000

/-- The expression `time.Duration(n) * time.Second` for a flag value `n` (an `int` of 64
bits): a number of nanoseconds in an `int64`. -/
def durationOfSeconds (n : Int) : Int :=
  wrapInt64 (wrapInt64 n * Second)

/-- Go `context.Context`, as far as deadlines go: instants are nanoseconds on one clock. -/
inductive Context where
  /-- The value `context.Background()`. -/
  | background
  /-- A `cancelCtx` under `parent`. -/
  | withCancel (parent : Context)
  /-- A `timerCtx` under `parent` with its own deadline. -/
  | timer (parent : Context) (deadline : Int)
deriving DecidableEq, Repr

/-- Go `Context.Deadline()`. -/
def Context.Deadline : Context → Option Int
  | Context.background => none
  | Context.withCancel parent => parent.Deadline
  | Context.timer _ deadline => some deadline

/-- The context a context was derived from. -/
def Context.parent : Context → Option Context
  | Context.background => none
  | Context.withCancel parent => some parent
  | Context.timer parent _ => some parent

/-- Go `context.WithDeadline(parent, d)`: when the parent's deadline is already earlier
than `d`, a plain `WithCancel(parent)`; otherwise a timer context. -/
def WithDeadline (parent : Context) (d : Int) : Context :=
  match parent.Deadline with
  | some cur => if cur < d then Context.withCancel parent else Context.timer parent d
  | none => Context.timer parent d

/-- Go `context.WithTimeout(parent, timeout)` called at the instant `now`:
`WithDeadline(parent, time.Now().Add(timeout))`. -/
def WithTimeout (parent : Context) (now : Int) (timeout : Int) : Context :=
  WithDeadline parent (now + timeout)

/-- Whether the context is canceled by a deadline at the instant `now`: its own timer has
fired, or an ancestor is canceled. -/
def Context.expired (now : Int) : Context → Bool
  | Context.background => false
  | Context.withCancel parent => parent.expired now
  | Context.timer parent deadline => decide (deadline ≤ now) || parent.expired now

/-- Line 115: the global context, made at the instant `t0` from the flag `-timeout`. -/
def globalContext (t0 : Int) (timeout : Int) : Context :=
  WithTimeout Context.background t0 (durationOfSeconds timeout)

/-- Line 136: the context of a collector unit, made at the instant `t1` under the global
context from the flag `-collector-timeout`. -/
def collectorContext (ctx : Context) (t1 : Int) (collectorTimeout : Int) : Context :=
  WithTimeout ctx t1 (durationOfSeconds collectorTimeout)

/-! ## The orchestration with the clock, the loop variable and panics

A finer model of lines 115-186 for the properties that depend on when things happen: the
clock is part of the state, the unit makes its context in a move of its own (line 136),
the receive of line 167 and the loop body of lines 168-183 are two moves, and a call to
`Collect` may panic, after which the unit runs its deferred calls and the process ends. -/

/-- What the timed orchestration is run with: `activeCollectors`, the flags `-concurrency`,
`-timeout` and `-collector-timeout`, and the instant `t0` at which line 115 makes the
global context. -/
structure TimedConfig where
  collectors : List Collector
  concurrency : Nat
  timeout : Int
  collectorTimeout : Int
  t0 : Int
deriving DecidableEq, Repr

/-- Where a collector unit (the goroutine of lines 128-152) stands, in the timed model. -/
inductive TimedPhase where
  /-- Line 131: waiting to send on `semaphore`. -/
  | blocked
  /-- A slot is held; `tracker.Start` (line 134) comes next. -/
  | acquired
  /-- The call `tracker.Start(c.Name())` is made; `context.WithTimeout` (line 136) is next. -/
  | started
  /-- The context `collectorCtx` is made and `c.Collect(collectorCtx)` is running. -/
  | scoped
  /-- The call to `Collect` returned and `result` is built (lines 141-149). -/
  | collected (result : CollectionResult)
  /-- The result is sent on `resultsCh` (line 151); the deferred calls come next. -/
  | sent
  /-- The deferred receive from `semaphore` (line 132) is made; `wg.Done` comes next. -/
  | released
  /-- The deferred `wg.Done` (line 129) is made: the goroutine is over. -/
  | done
  /-- The call to `Collect` panicked; the deferred receive from `semaphore` comes next. -/
  | panicked
  /-- After a panic, the deferred receive from `semaphore` is made; `wg.Done` comes next. -/
  | panicReleased
  /-- After a panic, the deferred calls are over: the runtime ends the process. -/
  | panicDone
deriving DecidableEq, Repr

/-- A collector unit with the instants of its acquire and of its `context.WithTimeout`,
and the context it made. -/
structure TimedUnit where
  c : Collector
  phase : TimedPhase
  /-- The instant of the send on `semaphore` (line 131). -/
  slotAt : Option Int
  /-- The instant of `context.WithTimeout(ctx, ...)` (line 136). -/
  scopeAt : Option Int
  /-- The context `collectorCtx` made at line 136 and passed to `Collect` at line 140. -/
  scope : Option Context
deriving DecidableEq, Repr

/-- The shared state of the goroutines of `main`, with the clock. -/
structure TimedState where
  /-- One unit per element of `activeCollectors`, in order. -/
  units : List TimedUnit
  /-- The number of elements held by the channel `semaphore`. -/
  semaphore : Nat
  /-- The counter of `wg`. -/
  wg : Nat
  /-- The buffer of `resultsCh`, oldest first. -/
  resultsCh : List CollectionResult
  /-- Whether `close(resultsCh)` (line 157) is made. -/
  closed : Bool
  /-- The loop variable `result`: received at line 167, the body of the loop not yet run. -/
  result : Option CollectionResult
  /-- Whether the loop `for result := range resultsCh` is over and `tracker.Finish()` made. -/
  loopDone : Bool
  /-- Whether the process has ended on a panic. -/
  exited : Bool
  /-- The clock, in nanoseconds. -/
  now : Int
  /-- The locals of the result loop and the tracker log. -/
  main : MainState
deriving DecidableEq, Repr

/-- The unit of a collector as the launch loop starts it. -/
def TimedUnit.fresh (c : Collector) : TimedUnit :=
  { c := c, phase := TimedPhase.blocked, slotAt := none, scopeAt := none, scope := none }

/-- The state after the launch loop: line 115 was run at `t0`, every unit waits for a slot. -/
def timedInit (cfg : TimedConfig) : TimedState :=
  { units := cfg.collectors.map TimedUnit.fresh,
    semaphore := 0, wg := cfg.collectors.length, resultsCh := [], closed := false,
    result := none, loopDone := false, exited := false, now := cfg.t0,
    main := MainState.init }

/-- The atomic moves of the timed model. -/
inductive TimedAction where
  /-- The clock advances by `d` nanoseconds. -/
  | tick (d : Nat)
  /-- Unit `i`: `semaphore <- struct{}{}` (line 131). -/
  | acquire (i : Nat)
  /-- Unit `i`: `tracker.Start(c.Name())` (line 134). -/
  | start (i : Nat)
  /-- Unit `i`: `context.WithTimeout(ctx, ...)` (line 136). -/
  | scope (i : Nat)
  /-- Unit `i`: `c.Collect(collectorCtx)` returns `ret`; `result` is built (lines 140-149). -/
  | collect (i : Nat) (ret : CollectReturn)
  /-- Unit `i`: `c.Collect(collectorCtx)` panics. -/
  | panic (i : Nat)
  /-- Unit `i`: `resultsCh <- result` (line 151). -/
  | send (i : Nat)
  /-- Unit `i`: the deferred `<-semaphore` (line 132). -/
  | release (i : Nat)
  /-- Unit `i`: the deferred `wg.Done()` (line 129). -/
  | done (i : Nat)
  /-- The closer goroutine: `wg.Wait()` returns and `close(resultsCh)` (lines 156-157). -/
  | close
  /-- The result loop receives one result into `result` (line 167). -/
  | recv
  /-- The result loop runs its body on `result` (lines 168-183). -/
  | body
  /-- The result loop ends on the closed, drained channel; `tracker.Finish()` (line 186). -/
  | finish
  /-- The runtime ends the process after the deferred calls of a panicked unit. -/
  | exit
deriving DecidableEq, Repr

/-- The state with unit `i` replaced by `u`. -/
def TimedState.setUnit (s : TimedState) (i : Nat) (u : TimedUnit) : TimedState :=
  { s with units := s.units.set i u }

/-- One move of the timed model: `none` when the move is not enabled. -/
def timedStep (cfg : TimedConfig) (s : TimedState) (a : TimedAction) : Option TimedState :=
  if s.exited = true then none
  else
    match a with
    | TimedAction.tick d => some { s with now := s.now + (d : Int) }
    | TimedAction.acquire i =>
      match s.units[i]? with
      | some u =>
        match u.phase with
        | TimedPhase.blocked =>
          if s.semaphore < cfg.concurrency then
            some { s.setUnit i { u with phase := TimedPhase.acquired, slotAt := some s.now } with
                   semaphore := s.semaphore + 1 }
          else none
        | _ => none
      | none => none
    | TimedAction.start i =>
      match s.units[i]? with
      | some u =>
        match u.phase with
        | TimedPhase.acquired =>
          some { s.setUnit i { u with phase := TimedPhase.started } with
                 main := { s.main with
                   tracker := s.main.tracker ++ [TrackerCall.Start u.c.Name] } }
        | _ => none
      | none => none
    | TimedAction.scope i =>
      match s.units[i]? with
      | some u =>
        match u.phase with
        | TimedPhase.started =>
          some (s.setUnit i { u with
            phase := TimedPhase.scoped, scopeAt := some s.now,
            scope := some (collectorContext (globalContext cfg.t0 cfg.timeout) s.now
              cfg.collectorTimeout) })
        | _ => none
      | none => none
    | TimedAction.collect i ret =>
      match s.units[i]? with
      | some u =>
        match u.phase with
        | TimedPhase.scoped =>
          some (s.setUnit i { u with phase := (TimedPhase.collected
            { CollectorID := u.c.ID, Artifacts := ret.Artifacts, Error := ret.Error,
              Duration := ret.Duration, StartedAt := ret.StartedAt }) })
        | _ => none
      | none => none
    | TimedAction.panic i =>
      match s.units[i]? with
      | some u =>
        match u.phase with
        | TimedPhase.scoped => some (s.setUnit i { u with phase := TimedPhase.panicked })
        | _ => none
      | none => none
    | TimedAction.send i =>
      match s.units[i]? with
      | some u =>
        match u.phase with
        | TimedPhase.collected result =>
          if s.resultsCh.length < cfg.collectors.length then
            some { s.setUnit i { u with phase := TimedPhase.sent } with
                   resultsCh := s.resultsCh ++ [result] }
          else none
        | _ => none
      | none => none
    | TimedAction.release i =>
      match s.units[i]? with
      | some u =>
        match u.phase with
        | TimedPhase.sent =>
          if 0 < s.semaphore then
            some { s.setUnit i { u with phase := TimedPhase.released } with
                   semaphore := s.semaphore - 1 }
          else none
        | TimedPhase.panicked =>
          if 0 < s.semaphore then
            some { s.setUnit i { u with phase := TimedPhase.panicReleased } with
                   semaphore := s.semaphore - 1 }
          else none
        | _ => none
      | none => none
    | TimedAction.done i =>
      match s.units[i]? with
      | some u =>
        match u.phase with
        | TimedPhase.released =>
          if 0 < s.wg then
            some { s.setUnit i { u with phase := TimedPhase.done } with wg := s.wg - 1 }
          else none
        | TimedPhase.panicReleased =>
          if 0 < s.wg then
            some { s.setUnit i { u with phase := TimedPhase.panicDone } with wg := s.wg - 1 }
          else none
        | _ => none
      | none => none
    | TimedAction.close =>
      if s.wg = 0 ∧ s.closed = false then some { s with closed := true } else none
    | TimedAction.recv =>
      match s.resultsCh, s.result with
      | r :: rest, none =>
        if s.loopDone = false then some { s with resultsCh := rest, result := some r }
        else none
      | _, _ => none
    | TimedAction.body =>
      match s.result with
      | some r => some { s with result := none, main := processResult s.main r }
      | none => none
    | TimedAction.finish =>
      if s.closed = true ∧ s.resultsCh = [] ∧ s.result = none ∧ s.loopDone = false then
        some { s with loopDone := true,
                      main := { s.main with
                        tracker := s.main.tracker ++ [TrackerCall.Finish] } }
      else none
    | TimedAction.exit =>
      if s.units.any (fun u => decide (u.phase = TimedPhase.panicDone)) = true then
        some { s with exited := true }
      else none

/-- The moves of `acts` made one after another from `s`, when each is enabled. -/
def timedRun (cfg : TimedConfig) (s : TimedState) : List TimedAction → Option TimedState
  | [] => some s
  | a :: acts =>
    match timedStep cfg s a with
    | some s' => timedRun cfg s' acts
    | none => none

/-- An interleaving of the timed orchestration from its initial state. -/
def timedExec (cfg : TimedConfig) (acts : List TimedAction) : Option TimedState :=
  timedRun cfg (timedInit cfg) acts

/-! ### What is observed of a timed state -/

/-- The collectors in the "running" progress state: entered by `tracker.Start`, left by
`tracker.Success` or `tracker.Fail`. -/
def runningCount (s : TimedState) : Nat :=
  startCalls s.main.tracker - endCalls s.main.tracker

/-- Whether a unit in this phase holds a slot of `semaphore`. -/
def TimedPhase.holdsSlot : TimedPhase → Bool
  | TimedPhase.acquired | TimedPhase.started | TimedPhase.scoped | TimedPhase.collected _
  | TimedPhase.sent | TimedPhase.panicked => true
  | _ => false

/-- The units holding a slot of `semaphore`. -/
def slotsHeld (s : TimedState) : Nat :=
  s.units.countP (fun u => u.phase.holdsSlot)

/-- The unit has called `tracker.Start`. -/
def TimedPhase.hasStarted : TimedPhase → Bool
  | TimedPhase.blocked | TimedPhase.acquired => false
  | _ => true

/-- The unit has called `tracker.Start` and neither sent its result nor panicked. -/
def TimedPhase.collecting : TimedPhase → Bool
  | TimedPhase.started | TimedPhase.scoped | TimedPhase.collected _ => true
  | _ => false

/-- The unit has sent its result. -/
def TimedPhase.handedOver : TimedPhase → Bool
  | TimedPhase.sent | TimedPhase.released | TimedPhase.done => true
  | _ => false

/-- The unit's call to `Collect` has panicked. -/
def TimedPhase.hasPanicked : TimedPhase → Bool
  | TimedPhase.panicked | TimedPhase.panicReleased | TimedPhase.panicDone => true
  | _ => false

/-- The unit has made its context `collectorCtx`. -/
def TimedPhase.hasScope : TimedPhase → Bool
  | TimedPhase.blocked | TimedPhase.acquired | TimedPhase.started => false
  | _ => true

/-- The units between `tracker.Start` and the send of their result. -/
def collectingCount (s : TimedState) : Nat :=
  s.units.countP (fun u => u.phase.collecting)

/-- The units whose call to `Collect` has panicked. -/
def panickedCount (s : TimedState) : Nat :=
  s.units.countP (fun u => u.phase.hasPanicked)

/-- The results sent and not yet given to `tracker.Success` or `tracker.Fail`: those in
`resultsCh` and the one in the loop variable. -/
def pendingResults (s : TimedState) : Nat :=
  s.resultsCh.length + (if s.result.isSome then 1 else 0)

/-! ### The timed moves as a relation, and the invariants -/

/-- The moves of `timedStep`, each with the unit it moves singled out. -/
inductive TimedMoves (cfg : TimedConfig) : TimedState → TimedAction → TimedState → Prop where
  | tick (s : TimedState) (d : Nat) :
      TimedMoves cfg s (TimedAction.tick d) { s with now := s.now + (d : Int) }
  | acquire (s : TimedState) (l1 l2 : List TimedUnit) (u : TimedUnit)
      (hp : u.phase = TimedPhase.blocked) (hu : s.units = l1 ++ u :: l2)
      (hs : s.semaphore < cfg.concurrency) :
      TimedMoves cfg s (TimedAction.acquire l1.length)
        { s with units := l1 ++ { u with phase := TimedPhase.acquired,
                                         slotAt := some s.now } :: l2,
                 semaphore := s.semaphore + 1 }
  | start (s : TimedState) (l1 l2 : List TimedUnit) (u : TimedUnit)
      (hp : u.phase = TimedPhase.acquired) (hu : s.units = l1 ++ u :: l2) :
      TimedMoves cfg s (TimedAction.start l1.length)
        { s with units := l1 ++ { u with phase := TimedPhase.started } :: l2,
                 main := { s.main with
                   tracker := s.main.tracker ++ [TrackerCall.Start u.c.Name] } }
  | scope (s : TimedState) (l1 l2 : List TimedUnit) (u : TimedUnit)
      (hp : u.phase = TimedPhase.started) (hu : s.units = l1 ++ u :: l2) :
      TimedMoves cfg s (TimedAction.scope l1.length)
        { s with units := l1 ++ { u with
            phase := TimedPhase.scoped, scopeAt := some s.now,
            scope := some (collectorContext (globalContext cfg.t0 cfg.timeout) s.now
              cfg.collectorTimeout) } :: l2 }
  | collect (s : TimedState) (l1 l2 : List TimedUnit) (u : TimedUnit) (ret : CollectReturn)
      (hp : u.phase = TimedPhase.scoped) (hu : s.units = l1 ++ u :: l2) :
      TimedMoves cfg s (TimedAction.collect l1.length ret)
        { s with units := l1 ++ { u with phase := (TimedPhase.collected
            { CollectorID := u.c.ID, Artifacts := ret.Artifacts, Error := ret.Error,
              Duration := ret.Duration, StartedAt := ret.StartedAt }) } :: l2 }
  | panic (s : TimedState) (l1 l2 : List TimedUnit) (u : TimedUnit)
      (hp : u.phase = TimedPhase.scoped) (hu : s.units = l1 ++ u :: l2) :
      TimedMoves cfg s (TimedAction.panic l1.length)
        { s with units := l1 ++ { u with phase := TimedPhase.panicked } :: l2 }
  | send (s : TimedState) (l1 l2 : List TimedUnit) (u : TimedUnit) (r : CollectionResult)
      (hp : u.phase = TimedPhase.collected r) (hu : s.units = l1 ++ u :: l2)
      (hcap : s.resultsCh.length < cfg.collectors.length) :
      TimedMoves cfg s (TimedAction.send l1.length)
        { s with units := l1 ++ { u with phase := TimedPhase.sent } :: l2,
                 resultsCh := s.resultsCh ++ [r] }
  | release (s : TimedState) (l1 l2 : List TimedUnit) (u : TimedUnit)
      (hp : u.phase = TimedPhase.sent) (hu : s.units = l1 ++ u :: l2)
      (hs : 0 < s.semaphore) :
      TimedMoves cfg s (TimedAction.release l1.length)
        { s with units := l1 ++ { u with phase := TimedPhase.released } :: l2,
                 semaphore := s.semaphore - 1 }
  | panicRelease (s : TimedState) (l1 l2 : List TimedUnit) (u : TimedUnit)
      (hp : u.phase = TimedPhase.panicked) (hu : s.units = l1 ++ u :: l2)
      (hs : 0 < s.semaphore) :
      TimedMoves cfg s (TimedAction.release l1.length)
        { s with units := l1 ++ { u with phase := TimedPhase.panicReleased } :: l2,
                 semaphore := s.semaphore - 1 }
  | done (s : TimedState) (l1 l2 : List TimedUnit) (u : TimedUnit)
      (hp : u.phase = TimedPhase.released) (hu : s.units = l1 ++ u :: l2)
      (hw : 0 < s.wg) :
      TimedMoves cfg s (TimedAction.done l1.length)
        { s with units := l1 ++ { u with phase := TimedPhase.done } :: l2, wg := s.wg - 1 }
  | panicDone (s : TimedState) (l1 l2 : List TimedUnit) (u : TimedUnit)
      (hp : u.phase = TimedPhase.panicReleased) (hu : s.units = l1 ++ u :: l2)
      (hw : 0 < s.wg) :
      TimedMoves cfg s (TimedAction.done l1.length)
        { s with units := l1 ++ { u with phase := TimedPhase.panicDone } :: l2,
                 wg := s.wg - 1 }
  | close (s : TimedState) (hw : s.wg = 0) (hc : s.closed = false) :
      TimedMoves cfg s TimedAction.close { s with closed := true }
  | recv (s : TimedState) (r : CollectionResult) (rest : List CollectionResult)
      (hch : s.resultsCh = r :: rest) (hr : s.result = none) (hl : s.loopDone = false) :
      TimedMoves cfg s TimedAction.recv { s with resultsCh := rest, result := some r }
  | body (s : TimedState) (r : CollectionResult) (hr : s.result = some r) :
      TimedMoves cfg s TimedAction.body
        { s with result := none, main := processResult s.main r }
  | finish (s : TimedState) (hc : s.closed = true) (hch : s.resultsCh = [])
      (hr : s.result = none) (hl : s.loopDone = false) :
      TimedMoves cfg s TimedAction.finish
        { s with loopDone := true,
                 main := { s.main with
                   tracker := s.main.tracker ++ [TrackerCall.Finish] } }
  | exit (s : TimedState) :
      TimedMoves cfg s TimedAction.exit { s with exited := true }

/-- What holds of a unit at the instant `now`: before its acquire it has no context; after
it, its acquire was at or after `t0`; once past line 136 it has a context; and a context it
has was made at or after its acquire, under the global context, from the flag. -/
def UnitOK (cfg : TimedConfig) (now : Int) (u : TimedUnit) : Prop :=
  (u.phase = TimedPhase.blocked → u.scope = none) ∧
  (u.phase ≠ TimedPhase.blocked →
    ∃ tAcq, u.slotAt = some tAcq ∧ cfg.t0 ≤ tAcq ∧ tAcq ≤ now) ∧
  (u.phase.hasScope = true → u.scope ≠ none) ∧
  (∀ ctx, u.scope = some ctx →
    ∃ tAcq t1, u.slotAt = some tAcq ∧ u.scopeAt = some t1 ∧
      cfg.t0 ≤ tAcq ∧ tAcq ≤ t1 ∧ t1 ≤ now ∧
      ctx = collectorContext (globalContext cfg.t0 cfg.timeout) t1 cfg.collectorTimeout)

/-- What holds in every state the timed orchestration reaches. -/
structure TimedInv (cfg : TimedConfig) (s : TimedState) : Prop where
  sem : s.semaphore = s.units.countP (fun u => u.phase.holdsSlot)
  semLe : s.semaphore ≤ cfg.concurrency
  starts : startCalls s.main.tracker = s.units.countP (fun u => u.phase.hasStarted)
  ends : endCalls s.main.tracker + pendingResults s
    = s.units.countP (fun u => u.phase.handedOver)
  clock : cfg.t0 ≤ s.now
  unitOK : ∀ u ∈ s.units, UnitOK cfg s.now u

/-! ### Sample timed runs -/

/-- Two collectors under one slot, a global timeout of 300 s from the instant 0 and a
collector timeout of 60 s. -/
def timedTwo : TimedConfig :=
  { collectors := sampleRegistry.take 2, concurrency := 1, timeout := 300,
    collectorTimeout := 60, t0 := 0 }

/-- An interleaving of `timedTwo`: the result loop has received the result of `net`, and
has not run its body, when `net` frees the slot and `proc` is started. -/
def lagTrace : List TimedAction :=
  [TimedAction.acquire 0, TimedAction.start 0, TimedAction.scope 0,
   TimedAction.collect 0 CollectReturn.empty, TimedAction.send 0, TimedAction.recv,
   TimedAction.release 0, TimedAction.acquire 1, TimedAction.start 1]

/-- An interleaving of `timedTwo`: `net` holds the slot for 5 s, then `proc` acquires it
and makes its context. -/
def waitTrace : List TimedAction :=
  [TimedAction.acquire 0, TimedAction.start 0, TimedAction.scope 0,
   TimedAction.tick 5000000000, TimedAction.collect 0 CollectReturn.empty,
   TimedAction.send 0, TimedAction.release 0, TimedAction.acquire 1, TimedAction.start 1,
   TimedAction.scope 1]
/-! ## Theorems: the result loop -/

theorem processResult_allResults (m : MainState) (r : CollectionResult) :
    (processResult m r).allResults = m.allResults ++ [r] := by
  unfold processResult
  cases hE : r.Error with
  | some e => simp
  | none => by_cases hA : r.Artifacts.length > 0 <;> simp [hA]

theorem aggOK_init : AggOK MainState.init := by
  simp [AggOK, MainState.init]

theorem processResult_aggOK (m : MainState) (r : CollectionResult) (h : AggOK m) :
    AggOK (processResult m r) := by
  obtain ⟨h1, h2, h3, h4⟩ := h
  unfold processResult AggOK
  cases hE : r.Error with
  | some e =>
    simp [hE, List.countP_append, List.filter_append, h1, h2, h3, h4]
  | none =>
    by_cases hA : r.Artifacts.length > 0
    · simp [hA, hE, List.countP_append, List.filter_append, h1, h2, h3, h4]
    · have hnil : r.Artifacts = [] := by
        cases hr : r.Artifacts with
        | nil => rfl
        | cons a l => simp [hr] at hA
      simp [hE, hnil, List.countP_append, List.filter_append, h1, h2, h3, h4]

theorem foldl_processResult_allResults (results : List CollectionResult) (m : MainState) :
    (results.foldl processResult m).allResults = m.allResults ++ results := by
  induction results generalizing m with
  | nil => simp
  | cons r rs ih => simp [List.foldl_cons, ih, processResult_allResults]

theorem foldl_processResult_aggOK (results : List CollectionResult) (m : MainState)
    (h : AggOK m) : AggOK (results.foldl processResult m) := by
  induction results generalizing m with
  | nil => simpa using h
  | cons r rs ih => exact ih _ (processResult_aggOK m r h)

theorem resultLoop_allResults (results : List CollectionResult) :
    (resultLoop results).allResults = results := by
  simp [resultLoop, foldl_processResult_allResults, MainState.init]

theorem resultLoop_aggOK (results : List CollectionResult) : AggOK (resultLoop results) :=
  foldl_processResult_aggOK results _ aggOK_init

theorem countP_isSome_add_isNone (results : List CollectionResult) :
    results.countP (fun r => r.Error.isNone) + results.countP (fun r => r.Error.isSome)
      = results.length := by
  induction results with
  | nil => simp
  | cons r rs ih =>
    cases hE : r.Error <;> simp [List.countP_cons, hE] <;> omega

/-- C2: after the result loop has processed `results`, `failedCollectors` is the number of
results with an error, `successfulCollectors` the number of results without (whatever
their artifact count), the two add up to the number of results, and `totalArtifacts` is
the sum of the artifact counts of the results without error, which is the length of
`allArtifacts` as handed to `analysis.RunAll`. -/
theorem resultLoop_counts (results : List CollectionResult) :
    (resultLoop results).failedCollectors = results.countP (fun r => r.Error.isSome) ∧
    (resultLoop results).successfulCollectors = results.countP (fun r => r.Error.isNone) ∧
    (resultLoop results).successfulCollectors + (resultLoop results).failedCollectors
      = results.length ∧
    (resultLoop results).totalArtifacts
      = ((results.filter (fun r => r.Error.isNone)).map (fun r => r.Artifacts.length)).sum ∧
    (resultLoop results).totalArtifacts = (resultLoop results).allArtifacts.length := by
  obtain ⟨h1, h2, h3, h4⟩ := resultLoop_aggOK results
  rw [resultLoop_allResults] at h1 h2 h3 h4
  refine ⟨h1, h2, ?_, h3, ?_⟩
  · rw [h1, h2]; exact countP_isSome_add_isNone results
  · rw [h3, h4, List.length_flatten, List.map_map]; rfl

/-- C10: `allArtifacts` after the result loop is the concatenation, in arrival order, of
the artifacts of the results without error; `totalArtifacts` sums over those results only;
and an iteration on a result with an error leaves `allArtifacts` and `totalArtifacts` as
they were, whatever artifacts that result carries. -/
theorem resultLoop_allArtifacts (results : List CollectionResult) :
    (resultLoop results).allArtifacts
      = ((results.filter (fun r => r.Error.isNone)).map (fun r => r.Artifacts)).flatten ∧
    (resultLoop results).totalArtifacts
      = ((results.filter (fun r => r.Error.isNone)).map (fun r => r.Artifacts.length)).sum ∧
    (∀ (m : MainState) (r : CollectionResult), r.Error ≠ none →
      (processResult m r).allArtifacts = m.allArtifacts ∧
      (processResult m r).totalArtifacts = m.totalArtifacts ∧
      (processResult m r).failedCollectors = m.failedCollectors + 1) := by
  obtain ⟨_, _, h3, h4⟩ := resultLoop_aggOK results
  rw [resultLoop_allResults] at h3 h4
  refine ⟨h4, h3, ?_⟩
  intro m r hr
  unfold processResult
  cases hE : r.Error with
  | none => exact absurd hE hr
  | some e => simp

/-- The result loop on a failed result that carries an artifact: the artifact is dropped. -/
theorem resultLoop_allArtifacts_witness :
    (resultLoop sampleResults).allArtifacts = (sampleResults.take 1).flatMap (fun r => r.Artifacts) ∧
    (resultLoop sampleResults).totalArtifacts = 1 ∧
    (resultLoop sampleResults).failedCollectors = 1 := by
  have h := resultLoop_allArtifacts sampleResults
  refine ⟨?_, ?_, ?_⟩
  · rw [h.1]; decide
  · rw [h.2.1]; decide
  · decide


/-! ## Theorems: findings -/

theorem foldl_findings (l : List Artifact) (n : Nat) :
    l.foldl (fun n a => if a.RiskScore ≥ 40 then n + 1 else n) n
      = n + (l.filter (fun a => decide (40 ≤ a.RiskScore))).length := by
  induction l generalizing n with
  | nil => simp
  | cons a l ih =>
    by_cases h : 40 ≤ a.RiskScore
    · simp [List.foldl_cons, ih, h]; omega
    · simp [List.foldl_cons, ih, h]

theorem findingsCount_eq (l : List Artifact) :
    findingsCount l = (l.filter (fun a => decide (40 ≤ a.RiskScore))).length := by
  simp [findingsCount, foldl_findings]

/-- C8: the findings count of `main` is the number of analyzed artifacts whose risk score
is at least 40 (a score of 40 counts, a score of 39 does not), and the summary has a
`Findings` line, carrying that count, exactly when the count is positive. -/
theorem findingsCount_spec (m : MainState) (analyzed : List Artifact) :
    findingsCount analyzed = (analyzed.filter (fun a => decide (40 ≤ a.RiskScore))).length ∧
    (∀ a : Artifact, findingsCount [{ a with RiskScore := 40 }] = 1 ∧
      findingsCount [{ a with RiskScore := 39 }] = 0) ∧
    (SummaryLine.Findings (findingsCount analyzed) ∈ summaryLines m analyzed
      ↔ 0 < findingsCount analyzed) ∧
    (∀ n, SummaryLine.Findings n ∈ summaryLines m analyzed
      ↔ (n = findingsCount analyzed ∧ 0 < n)) := by
  refine ⟨findingsCount_eq analyzed, ?_, ?_, ?_⟩
  · intro a
    simp [findingsCount]
  · by_cases h : 0 < findingsCount analyzed
    · simp [summaryLines, h]
    · simp [summaryLines, h]
  · intro n
    by_cases h : 0 < findingsCount analyzed
    · simp only [summaryLines, gt_iff_lt, h, if_true]
      simp
      intro hn; subst hn; exact h
    · simp only [summaryLines, gt_iff_lt, h, if_false]
      simp
      intro hn; subst hn; omega

/-! ## Theorems: `filterCollectors` -/

theorem foldl_append_filter (p : Collector → Bool) (l acc : List Collector) :
    l.foldl (fun filtered c => if p c then filtered ++ [c] else filtered) acc
      = acc ++ l.filter p := by
  induction l generalizing acc with
  | nil => simp
  | cons c l ih =>
    by_cases h : p c <;> simp [List.foldl_cons, ih, h]

theorem foldl_allowed (toks : List GoString) (acc : GoString → Bool) (k : GoString) :
    (toks.foldl
      (fun allowed id =>
        let id := TrimSpace id
        if id ≠ [] then (fun k => if k = id then true else allowed k) else allowed)
      acc) k = true
    ↔ acc k = true ∨ ∃ tok ∈ toks, TrimSpace tok ≠ [] ∧ k = TrimSpace tok := by
  induction toks generalizing acc with
  | nil => simp
  | cons t ts ih =>
    rw [List.foldl_cons, ih]
    by_cases ht : TrimSpace t = []
    · simp [ht]
    · by_cases hk : k = TrimSpace t
      · simp [ht, hk]
      · simp [ht, hk]

theorem mem_filterTokens (filter k : GoString) :
    k ∈ filterTokens filter ↔ ∃ tok ∈ Split filter ',', TrimSpace tok ≠ [] ∧ k = TrimSpace tok := by
  simp only [filterTokens, List.mem_filter, List.mem_map, decide_eq_true_eq]
  constructor
  · rintro ⟨⟨tok, htok, rfl⟩, hne⟩
    exact ⟨tok, htok, hne, rfl⟩
  · rintro ⟨tok, htok, hne, rfl⟩
    exact ⟨⟨tok, htok, rfl⟩, hne⟩

theorem allowedMap_iff (filter k : GoString) :
    allowedMap filter k = true ↔ k ∈ filterTokens filter := by
  rw [mem_filterTokens, allowedMap, foldl_allowed]
  simp

theorem allowedMap_eq (filter : GoString) :
    allowedMap filter = fun k => decide (k ∈ filterTokens filter) := by
  funext k
  by_cases h : k ∈ filterTokens filter
  · simp [h, (allowedMap_iff filter k).2 h]
  · have : allowedMap filter k ≠ true := fun hk => h ((allowedMap_iff filter k).1 hk)
    simp [h, this]

/-- What `filterCollectors` returns, in terms of the selection by tokens. -/
theorem filterCollectors_eq (Registry : List Collector) (filter : GoString) :
    filterCollectors Registry filter =
      if filter = [] then (Registry, [])
      else if Registry.filter (fun c => decide (c.ID ∈ filterTokens filter)) = [] then
        (Registry, [noMatchWarning filter])
      else (Registry.filter (fun c => decide (c.ID ∈ filterTokens filter)), []) := by
  unfold filterCollectors
  by_cases hf : filter = []
  · simp [hf]
  · simp only [hf, if_false, foldl_append_filter, List.nil_append, allowedMap_eq,
      List.length_eq_zero]

theorem filterTokens_nil : filterTokens [] = [] := by decide

/-- C3: a non-empty filter none of whose trimmed, non-empty tokens is the ID of a registry
collector makes `filterCollectors` return the whole registry as it is, with the warning on
standard error; so do the filters `","` and `" "`, whose tokens are all empty; and for every
filter the returned list is non-empty when the registry is. -/
theorem filterCollectors_fallback (Registry : List Collector) (filter : GoString) :
    (filter ≠ [] →
      (∀ tok ∈ Split filter ',', TrimSpace tok ≠ [] → ∀ c ∈ Registry, c.ID ≠ TrimSpace tok) →
      filterCollectors Registry filter = (Registry, [noMatchWarning filter])) ∧
    (filterCollectors Registry ",".toList).1 = Registry ∧
    (filterCollectors Registry " ".toList).1 = Registry ∧
    (Registry ≠ [] → (filterCollectors Registry filter).1 ≠ []) := by
  refine ⟨?_, ?_, ?_, ?_⟩
  · intro hne hnone
    have hempty : Registry.filter (fun c => decide (c.ID ∈ filterTokens filter)) = [] := by
      rw [List.filter_eq_nil_iff]
      intro c hc
      simp only [decide_eq_true_eq, mem_filterTokens]
      rintro ⟨tok, htok, hne', heq⟩
      exact hnone tok htok hne' c hc heq
    rw [filterCollectors_eq]
    simp [hne, hempty]
  · have h : filterTokens [','] = [] := by decide
    rw [filterCollectors_eq]
    simp [h]
  · have h : filterTokens [' '] = [] := by decide
    rw [filterCollectors_eq]
    simp [h]
  · intro hreg
    rw [filterCollectors_eq]
    by_cases hf : filter = []
    · simpa [hf] using hreg
    · by_cases he : Registry.filter (fun c => decide (c.ID ∈ filterTokens filter)) = []
      · simpa [hf, he] using hreg
      · simp [hf, he]

/-- The filter `"bogus, ,nope"` on the sample registry: nothing matches, all three run. -/
theorem filterCollectors_fallback_witness :
    filterCollectors sampleRegistry "bogus, ,nope".toList
      = (sampleRegistry, [noMatchWarning "bogus, ,nope".toList]) :=
  (filterCollectors_fallback sampleRegistry "bogus, ,nope".toList).1 (by decide) (by decide)

/-- C7: when some trimmed, non-empty token of the filter is the ID of a registry collector,
`filterCollectors` returns the registry entries whose ID is such a token, in registry order
and without warning; each such entry as often as the registry has it and no other entry;
a filter with the same set of tokens gives the same list; and the empty filter gives the
whole registry. -/
theorem filterCollectors_selection (Registry : List Collector) (filter : GoString)
    (hmatch : ∃ c ∈ Registry, ∃ tok ∈ Split filter ',',
      TrimSpace tok ≠ [] ∧ c.ID = TrimSpace tok) :
    filterCollectors Registry filter
      = (Registry.filter (fun c => decide (c.ID ∈ filterTokens filter)), []) ∧
    (∀ c, ((filterCollectors Registry filter).1).count c
      = if c.ID ∈ filterTokens filter then Registry.count c else 0) ∧
    (∀ other : GoString, (∀ t, t ∈ filterTokens filter ↔ t ∈ filterTokens other) →
      (filterCollectors Registry other).1 = (filterCollectors Registry filter).1) ∧
    filterCollectors Registry [] = (Registry, []) := by
  obtain ⟨c, hc, tok, htok, hne, heq⟩ := hmatch
  have hcmem : c.ID ∈ filterTokens filter := (mem_filterTokens filter c.ID).2 ⟨tok, htok, hne, heq⟩
  have hfne : filter ≠ [] := by
    intro h
    rw [h, filterTokens_nil] at hcmem
    simp at hcmem
  have hnonempty : Registry.filter (fun c => decide (c.ID ∈ filterTokens filter)) ≠ [] := by
    intro h
    rw [List.filter_eq_nil_iff] at h
    exact h c hc (by simpa using hcmem)
  have hmain : filterCollectors Registry filter
      = (Registry.filter (fun c => decide (c.ID ∈ filterTokens filter)), []) := by
    rw [filterCollectors_eq]; simp [hfne, hnonempty]
  refine ⟨hmain, ?_, ?_, ?_⟩
  · intro d
    rw [hmain]
    by_cases hd : d.ID ∈ filterTokens filter
    · simp [List.count_filter, hd]
    · simp only [hd, if_false]
      rw [List.count_eq_zero]
      intro hmem
      have := (List.mem_filter.1 hmem).2
      simp at this
      exact hd this
  · intro other hsame
    have hfilt : Registry.filter (fun c => decide (c.ID ∈ filterTokens other))
        = Registry.filter (fun c => decide (c.ID ∈ filterTokens filter)) := by
      congr 1
      funext d
      simp [hsame d.ID]
    have hone : other ≠ [] := by
      intro h
      rw [h, filterTokens_nil] at hsame
      exact absurd ((hsame c.ID).1 hcmem) (by simp)
    rw [hmain, filterCollectors_eq]
    simp [hone, hfilt, hnonempty]
  · rw [filterCollectors_eq]; simp

/-- The filter `"files , net,,bogus,net"` on the sample registry selects `net` and `files`,
in registry order. -/
theorem filterCollectors_selection_witness :
    (filterCollectors sampleRegistry "files , net,,bogus,net".toList).1.map Collector.ID
      = ["net".toList, "files".toList] := by
  have h := (filterCollectors_selection sampleRegistry "files , net,,bogus,net".toList
    (by decide)).1
  rw [h]
  decide

/-! ## Theorems: the orchestration -/

/-! ### The phase predicates on each phase -/
@[simp] theorem Phase.holdsSlot_blocked : Phase.holdsSlot Phase.blocked = false := rfl
@[simp] theorem Phase.holdsSlot_acquired : Phase.holdsSlot Phase.acquired = true := rfl
@[simp] theorem Phase.holdsSlot_started : Phase.holdsSlot Phase.started = true := rfl
@[simp] theorem Phase.holdsSlot_collected (r : CollectionResult) : Phase.holdsSlot (Phase.collected r) = true := rfl
@[simp] theorem Phase.holdsSlot_sent : Phase.holdsSlot Phase.sent = true := rfl
@[simp] theorem Phase.holdsSlot_released : Phase.holdsSlot Phase.released = false := rfl
@[simp] theorem Phase.holdsSlot_done : Phase.holdsSlot Phase.done = false := rfl
@[simp] theorem Phase.unsent_blocked : Phase.unsent Phase.blocked = true := rfl
@[simp] theorem Phase.unsent_acquired : Phase.unsent Phase.acquired = true := rfl
@[simp] theorem Phase.unsent_started : Phase.unsent Phase.started = true := rfl
@[simp] theorem Phase.unsent_collected (r : CollectionResult) : Phase.unsent (Phase.collected r) = true := rfl
@[simp] theorem Phase.unsent_sent : Phase.unsent Phase.sent = false := rfl
@[simp] theorem Phase.unsent_released : Phase.unsent Phase.released = false := rfl
@[simp] theorem Phase.unsent_done : Phase.unsent Phase.done = false := rfl
@[simp] theorem Phase.hasStarted_blocked : Phase.hasStarted Phase.blocked = false := rfl
@[simp] theorem Phase.hasStarted_acquired : Phase.hasStarted Phase.acquired = false := rfl
@[simp] theorem Phase.hasStarted_started : Phase.hasStarted Phase.started = true := rfl
@[simp] theorem Phase.hasStarted_collected (r : CollectionResult) : Phase.hasStarted (Phase.collected r) = true := rfl
@[simp] theorem Phase.hasStarted_sent : Phase.hasStarted Phase.sent = true := rfl
@[simp] theorem Phase.hasStarted_released : Phase.hasStarted Phase.released = true := rfl
@[simp] theorem Phase.hasStarted_done : Phase.hasStarted Phase.done = true := rfl
@[simp] theorem Phase.live_blocked : Phase.live Phase.blocked = true := rfl
@[simp] theorem Phase.live_acquired : Phase.live Phase.acquired = true := rfl
@[simp] theorem Phase.live_started : Phase.live Phase.started = true := rfl
@[simp] theorem Phase.live_collected (r : CollectionResult) : Phase.live (Phase.collected r) = true := rfl
@[simp] theorem Phase.live_sent : Phase.live Phase.sent = true := rfl
@[simp] theorem Phase.live_released : Phase.live Phase.released = true := rfl
@[simp] theorem Phase.live_done : Phase.live Phase.done = false := rfl
@[simp] theorem Phase.weight_blocked : Phase.weight Phase.blocked = 7 := rfl
@[simp] theorem Phase.weight_acquired : Phase.weight Phase.acquired = 6 := rfl
@[simp] theorem Phase.weight_started : Phase.weight Phase.started = 5 := rfl
@[simp] theorem Phase.weight_collected (r : CollectionResult) : Phase.weight (Phase.collected r) = 4 := rfl
@[simp] theorem Phase.weight_sent : Phase.weight Phase.sent = 2 := rfl
@[simp] theorem Phase.weight_released : Phase.weight Phase.released = 1 := rfl
@[simp] theorem Phase.weight_done : Phase.weight Phase.done = 0 := rfl

theorem getElem?_decomp {α : Type} (l : List α) (i : Nat) (a : α) (h : l[i]? = some a) :
    ∃ l1 l2, l = l1 ++ a :: l2 ∧ l1.length = i ∧ ∀ b, l.set i b = l1 ++ b :: l2 := by
  induction l generalizing i with
  | nil => simp at h
  | cons x xs ih =>
    cases i with
    | zero =>
      simp at h
      subst h
      exact ⟨[], xs, rfl, rfl, fun b => rfl⟩
    | succ j =>
      simp at h
      obtain ⟨l1, l2, h1, h2, h3⟩ := ih j h
      refine ⟨x :: l1, l2, ?_, ?_, ?_⟩
      · simp [h1]
      · simp [h2]
      · intro b; simp [h3]

theorem getElem?_append_cons {α : Type} (l1 l2 : List α) (a : α) :
    (l1 ++ a :: l2)[l1.length]? = some a := by
  induction l1 with
  | nil => simp
  | cons x xs ih => simpa using ih

theorem set_append_cons {α : Type} (l1 l2 : List α) (a b : α) :
    (l1 ++ a :: l2).set l1.length b = l1 ++ b :: l2 := by
  induction l1 with
  | nil => rfl
  | cons x xs ih => simp [ih]

theorem step_moves (cfg : Config) (s s' : State) (a : Action) (h : step cfg s a = some s') :
    Moves cfg s a s' := by
  cases a with
  | acquire i =>
    simp only [step] at h
    split at h
    · rename_i c hget
      obtain ⟨l1, l2, h1, h2, h3⟩ := getElem?_decomp _ _ _ hget
      split at h
      · rename_i hs
        simp only [Option.some.injEq] at h
        subst h h2
        simp only [State.setUnit, h3]
        exact Moves.acquire s l1 l2 c h1 hs
      · simp at h
    · simp at h
  | start i =>
    simp only [step] at h
    split at h
    · rename_i c hget
      obtain ⟨l1, l2, h1, h2, h3⟩ := getElem?_decomp _ _ _ hget
      simp only [Option.some.injEq] at h
      subst h h2
      simp only [State.setUnit, h3]
      exact Moves.start s l1 l2 c h1
    · simp at h
  | collect i ret =>
    simp only [step] at h
    split at h
    · rename_i c hget
      obtain ⟨l1, l2, h1, h2, h3⟩ := getElem?_decomp _ _ _ hget
      simp only [Option.some.injEq] at h
      subst h h2
      simp only [State.setUnit, h3]
      exact Moves.collect s l1 l2 c ret h1
    · simp at h
  | send i =>
    simp only [step] at h
    split at h
    · rename_i c r hget
      obtain ⟨l1, l2, h1, h2, h3⟩ := getElem?_decomp _ _ _ hget
      split at h
      · rename_i hs
        simp only [Option.some.injEq] at h
        subst h h2
        simp only [State.setUnit, h3]
        exact Moves.send s l1 l2 c r h1 hs
      · simp at h
    · simp at h
  | release i =>
    simp only [step] at h
    split at h
    · rename_i c hget
      obtain ⟨l1, l2, h1, h2, h3⟩ := getElem?_decomp _ _ _ hget
      split at h
      · rename_i hs
        simp only [Option.some.injEq] at h
        subst h h2
        simp only [State.setUnit, h3]
        exact Moves.release s l1 l2 c h1 hs
      · simp at h
    · simp at h
  | done i =>
    simp only [step] at h
    split at h
    · rename_i c hget
      obtain ⟨l1, l2, h1, h2, h3⟩ := getElem?_decomp _ _ _ hget
      split at h
      · rename_i hs
        simp only [Option.some.injEq] at h
        subst h h2
        simp only [State.setUnit, h3]
        exact Moves.done s l1 l2 c h1 hs
      · simp at h
    · simp at h
  | close =>
    simp only [step] at h
    split at h
    · rename_i hc
      simp only [Option.some.injEq] at h
      subst h
      exact Moves.close s hc.1 hc.2
    · simp at h
  | recv =>
    simp only [step] at h
    split at h
    · rename_i r rest hch
      split at h
      · rename_i hl
        simp only [Option.some.injEq] at h
        subst h
        exact Moves.recv s r rest hch hl
      · simp at h
    · simp at h
  | finish =>
    simp only [step] at h
    split at h
    · rename_i hc
      simp only [Option.some.injEq] at h
      subst h
      exact Moves.finish s hc.1 hc.2.1 hc.2.2
    · simp at h

theorem moves_step (cfg : Config) (s s' : State) (a : Action) (h : Moves cfg s a s') :
    step cfg s a = some s' := by
  cases h with
  | acquire l1 l2 c hu hs =>
    simp only [step, hu, getElem?_append_cons, hs, State.setUnit, set_append_cons, if_true]
  | start l1 l2 c hu =>
    simp only [step, hu, getElem?_append_cons, State.setUnit, set_append_cons]
  | collect l1 l2 c ret hu =>
    simp only [step, hu, getElem?_append_cons, State.setUnit, set_append_cons]
  | send l1 l2 c r hu hcap =>
    simp only [step, hu, getElem?_append_cons, hcap, State.setUnit, set_append_cons, if_true]
  | release l1 l2 c hu hs =>
    simp only [step, hu, getElem?_append_cons, hs, State.setUnit, set_append_cons, if_true]
  | done l1 l2 c hu hw =>
    simp only [step, hu, getElem?_append_cons, hw, State.setUnit, set_append_cons, if_true]
  | close hw hc => simp [step, hw, hc]
  | recv r rest hch hl => simp [step, hch, hl]
  | finish hc hch hl => simp [step, hc, hch, hl]

theorem processResult_tracker (m : MainState) (r : CollectionResult) :
    startCalls (processResult m r).tracker = startCalls m.tracker ∧
    endCalls (processResult m r).tracker = endCalls m.tracker + 1 := by
  unfold processResult startCalls endCalls
  cases hE : r.Error with
  | some e => simp [List.countP_append]
  | none => by_cases hA : r.Artifacts.length > 0 <;> simp [hA, List.countP_append]

theorem inv_init (cfg : Config) : Inv cfg (initState cfg) := by
  have hunits : ∀ l : List Collector,
      (l.map (fun c => ({ c := c, phase := Phase.blocked } : CollectorUnit))).countP
        (fun u => u.phase.holdsSlot) = 0 ∧
      (l.map (fun c => ({ c := c, phase := Phase.blocked } : CollectorUnit))).countP
        (fun u => u.phase.live) = l.length ∧
      (l.map (fun c => ({ c := c, phase := Phase.blocked } : CollectorUnit))).countP
        (fun u => !u.phase.unsent) = 0 ∧
      (l.map (fun c => ({ c := c, phase := Phase.blocked } : CollectorUnit))).countP
        (fun u => u.phase.hasStarted) = 0 ∧
      (l.map (fun c => ({ c := c, phase := Phase.blocked } : CollectorUnit))).filter
        (fun u => u.phase.unsent)
        = l.map (fun c => ({ c := c, phase := Phase.blocked } : CollectorUnit)) := by
    intro l
    induction l with
    | nil => simp
    | cons c l ih =>
      obtain ⟨i1, i2, i3, i4, i5⟩ := ih
      simp [List.countP_cons, Phase.holdsSlot, Phase.live, Phase.unsent, Phase.hasStarted,
        i1, i2, i3, i4, i5]
  obtain ⟨i1, i2, i3, i4, i5⟩ := hunits cfg.collectors
  refine ⟨?_, ?_, ?_, ?_, ?_, ?_, ?_, ?_, ?_, ?_, ?_, ?_⟩
  · simp [initState, List.map_map, Function.comp_def]
  · simp [initState, i1]
  · simp [initState]
  · simp [initState, i2]
  · simp [initState]
  · simp [initState]
  · simp only [initState, i5]
    simp [MainState.init]
  · intro u hu r hr
    simp only [initState, List.mem_map] at hu
    obtain ⟨c, _, rfl⟩ := hu
    simp at hr
  · simp [initState, i3, MainState.init]
  · simp [initState, i4, MainState.init, startCalls]
  · simp [initState, MainState.init, endCalls]
  · exact aggOK_init

theorem inv_step (cfg : Config) (s s' : State) (a : Action) (hinv : Inv cfg s)
    (hm : Moves cfg s a s') : Inv cfg s' := by
  obtain ⟨h1, h2, h3, h4, h5, h6, h7, h8, h9, h10, h11, h12⟩ := hinv
  cases hm with
  | acquire l1 l2 c hu hs =>
    rw [hu] at h1 h2 h4 h7 h8 h9 h10
    simp [List.countP_append, List.countP_cons, List.filter_append, List.filter_cons]
      at h2 h4 h7 h9 h10
    refine ⟨?_, ?_, ?_, ?_, ?_, ?_, ?_, ?_, ?_, ?_, ?_, ?_⟩
    · simpa using h1
    · simp [List.countP_append, List.countP_cons, h2]; omega
    · simpa using hs
    · simp [List.countP_append, List.countP_cons, h4]
    · simpa using h5
    · simpa using h6
    · simpa [List.filter_append, List.filter_cons] using h7
    · intro u hmem r hr
      simp only [List.mem_append, List.mem_cons] at hmem
      rcases hmem with hmem | hmem | hmem
      · exact h8 u (by simp [hmem]) r hr
      · subst hmem; simp at hr
      · exact h8 u (by simp [hmem]) r hr
    · simp [List.countP_append, List.countP_cons, h9]
    · simp [List.countP_append, List.countP_cons, h10]
    · simpa using h11
    · simpa using h12
  | start l1 l2 c hu =>
    rw [hu] at h1 h2 h4 h7 h8 h9 h10
    simp [List.countP_append, List.countP_cons, List.filter_append, List.filter_cons]
      at h2 h4 h7 h9 h10
    refine ⟨?_, ?_, ?_, ?_, ?_, ?_, ?_, ?_, ?_, ?_, ?_, ?_⟩
    · simpa using h1
    · simp [List.countP_append, List.countP_cons, h2]
    · simpa using h3
    · simp [List.countP_append, List.countP_cons, h4]
    · simpa using h5
    · simpa using h6
    · simpa [List.filter_append, List.filter_cons] using h7
    · intro u hmem r hr
      simp only [List.mem_append, List.mem_cons] at hmem
      rcases hmem with hmem | hmem | hmem
      · exact h8 u (by simp [hmem]) r hr
      · subst hmem; simp at hr
      · exact h8 u (by simp [hmem]) r hr
    · simp [List.countP_append, List.countP_cons, h9]
    · simp [List.countP_append, List.countP_cons, startCalls] at h10 ⊢; omega
    · simpa [endCalls, List.countP_append] using h11
    · simpa using h12
  | collect l1 l2 c ret hu =>
    rw [hu] at h1 h2 h4 h7 h8 h9 h10
    simp [List.countP_append, List.countP_cons, List.filter_append, List.filter_cons]
      at h2 h4 h7 h9 h10
    refine ⟨?_, ?_, ?_, ?_, ?_, ?_, ?_, ?_, ?_, ?_, ?_, ?_⟩
    · simpa using h1
    · simp [List.countP_append, List.countP_cons, h2]
    · simpa using h3
    · simp [List.countP_append, List.countP_cons, h4]
    · simpa using h5
    · simpa using h6
    · simpa [List.filter_append, List.filter_cons] using h7
    · intro u hmem r hr
      simp only [List.mem_append, List.mem_cons] at hmem
      rcases hmem with hmem | hmem | hmem
      · exact h8 u (by simp [hmem]) r hr
      · subst hmem; simp at hr; subst hr; rfl
      · exact h8 u (by simp [hmem]) r hr
    · simp [List.countP_append, List.countP_cons, h9]
    · simp [List.countP_append, List.countP_cons, h10]
    · simpa using h11
    · simpa using h12
  | send l1 l2 c r hu hcap =>
    have hid : r.CollectorID = c.ID := h8 ⟨c, Phase.collected r⟩ (by simp [hu]) r rfl
    rw [hu] at h1 h2 h4 h7 h8 h9 h10
    simp [List.countP_append, List.countP_cons, List.filter_append, List.filter_cons]
      at h2 h4 h7 h9 h10
    refine ⟨?_, ?_, ?_, ?_, ?_, ?_, ?_, ?_, ?_, ?_, ?_, ?_⟩
    · simpa using h1
    · simp [List.countP_append, List.countP_cons, h2]
    · simpa using h3
    · simp [List.countP_append, List.countP_cons, h4]
    · simpa using h5
    · have hld : s.loopDone = false := by
        cases hl : s.loopDone with
        | false => rfl
        | true =>
          have := h5 (h6 hl).1
          omega
      simp [hld]
    · simp only [List.map_append, List.map_cons, List.map_nil] at h7 ⊢
      simp [List.filter_append, List.filter_cons]
      rw [hid]
      refine List.Perm.trans ?_ h7
      rw [List.perm_iff_count]
      intro x
      simp [List.count_append, List.count_cons]
      omega
    · intro u hmem r hr
      simp only [List.mem_append, List.mem_cons] at hmem
      rcases hmem with hmem | hmem | hmem
      · exact h8 u (by simp [hmem]) r hr
      · subst hmem; simp at hr
      · exact h8 u (by simp [hmem]) r hr
    · simp [List.countP_append, List.countP_cons, h9]; omega
    · simp [List.countP_append, List.countP_cons, h10]
    · simpa using h11
    · simpa using h12
  | release l1 l2 c hu hs =>
    rw [hu] at h1 h2 h4 h7 h8 h9 h10
    simp [List.countP_append, List.countP_cons, List.filter_append, List.filter_cons]
      at h2 h4 h7 h9 h10
    refine ⟨?_, ?_, ?_, ?_, ?_, ?_, ?_, ?_, ?_, ?_, ?_, ?_⟩
    · simpa using h1
    · simp [List.countP_append, List.countP_cons, h2]
    · simp; omega
    · simp [List.countP_append, List.countP_cons, h4]
    · simpa using h5
    · simpa using h6
    · simpa [List.filter_append, List.filter_cons] using h7
    · intro u hmem r hr
      simp only [List.mem_append, List.mem_cons] at hmem
      rcases hmem with hmem | hmem | hmem
      · exact h8 u (by simp [hmem]) r hr
      · subst hmem; simp at hr
      · exact h8 u (by simp [hmem]) r hr
    · simp [List.countP_append, List.countP_cons, h9]
    · simp [List.countP_append, List.countP_cons, h10]
    · simpa using h11
    · simpa using h12
  | done l1 l2 c hu hw =>
    rw [hu] at h1 h2 h4 h7 h8 h9 h10
    simp [List.countP_append, List.countP_cons, List.filter_append, List.filter_cons]
      at h2 h4 h7 h9 h10
    refine ⟨?_, ?_, ?_, ?_, ?_, ?_, ?_, ?_, ?_, ?_, ?_, ?_⟩
    · simpa using h1
    · simp [List.countP_append, List.countP_cons, h2]
    · simpa using h3
    · simp [List.countP_append, List.countP_cons, h4]
    · intro hc; have := h5 hc; simp; omega
    · simpa using h6
    · simpa [List.filter_append, List.filter_cons] using h7
    · intro u hmem r hr
      simp only [List.mem_append, List.mem_cons] at hmem
      rcases hmem with hmem | hmem | hmem
      · exact h8 u (by simp [hmem]) r hr
      · subst hmem; simp at hr
      · exact h8 u (by simp [hmem]) r hr
    · simp [List.countP_append, List.countP_cons, h9]
    · simp [List.countP_append, List.countP_cons, h10]
    · simpa using h11
    · simpa using h12
  | close hw hc =>
    refine ⟨h1, h2, h3, h4, fun _ => hw, ?_, h7, h8, h9, h10, h11, h12⟩
    intro hl
    have := (h6 hl).1
    simp [hc] at this
  | recv r rest hch hl =>
    obtain ⟨t1, t2⟩ := processResult_tracker s.main r
    refine ⟨h1, h2, h3, h4, h5, ?_, ?_, h8, ?_, ?_, ?_, processResult_aggOK _ _ h12⟩
    · intro h; simp [hl] at h
    · simpa [processResult_allResults, hch] using h7
    · simp [processResult_allResults]; rw [hch] at h9; simp at h9; omega
    · simpa [t1] using h10
    · simp [processResult_allResults, t2, h11]
  | finish hc hch hl =>
    refine ⟨h1, h2, h3, h4, h5, fun _ => ⟨hc, hch⟩, h7, h8, h9, ?_, ?_, h12⟩
    · simpa [startCalls, List.countP_append] using h10
    · simpa [endCalls, List.countP_append] using h11

/-! ### Runs -/

theorem inv_run (cfg : Config) (acts : List Action) (s s' : State) (hinv : Inv cfg s)
    (h : run cfg s acts = some s') : Inv cfg s' := by
  induction acts generalizing s with
  | nil =>
    simp only [run, Option.some.injEq] at h
    subst h
    exact hinv
  | cons a acts ih =>
    simp only [run] at h
    cases hs : step cfg s a with
    | none => simp [hs] at h
    | some s1 =>
      simp only [hs] at h
      exact ih s1 (inv_step cfg s s1 a hinv (step_moves cfg s s1 a hs)) h

theorem inv_exec (cfg : Config) (acts : List Action) (s : State)
    (h : exec cfg acts = some s) : Inv cfg s :=
  inv_run cfg acts (initState cfg) s (inv_init cfg) h

theorem run_append (cfg : Config) (a1 a2 : List Action) (s : State) :
    run cfg s (a1 ++ a2) = (run cfg s a1).bind (fun s' => run cfg s' a2) := by
  induction a1 generalizing s with
  | nil => simp [run]
  | cons a a1 ih =>
    simp only [List.cons_append, run]
    cases hs : step cfg s a with
    | none => simp
    | some s1 => simpa using ih s1

theorem moves_measure (cfg : Config) (s s' : State) (a : Action) (hm : Moves cfg s a s') :
    movesLeft s = movesLeft s' + 1 := by
  cases hm with
  | acquire l1 l2 c hu hs => simp [movesLeft, hu, List.sum_append]; omega
  | start l1 l2 c hu => simp [movesLeft, hu, List.sum_append]; omega
  | collect l1 l2 c ret hu => simp [movesLeft, hu, List.sum_append]; omega
  | send l1 l2 c r hu hcap => simp [movesLeft, hu, List.sum_append]; omega
  | release l1 l2 c hu hs => simp [movesLeft, hu, List.sum_append]; omega
  | done l1 l2 c hu hw => simp [movesLeft, hu, List.sum_append]; omega
  | close hw hc => simp [movesLeft, hc]; omega
  | recv r rest hch hl => simp [movesLeft, hch]; omega
  | finish hc hch hl => simp [movesLeft, hl]

theorem run_measure (cfg : Config) (acts : List Action) (s s' : State)
    (h : run cfg s acts = some s') : movesLeft s = movesLeft s' + acts.length := by
  induction acts generalizing s with
  | nil =>
    simp only [run, Option.some.injEq] at h
    subst h
    simp
  | cons a acts ih =>
    simp only [run] at h
    cases hs : step cfg s a with
    | none => simp [hs] at h
    | some s1 =>
      simp only [hs] at h
      have h1 := moves_measure cfg s s1 a (step_moves cfg s s1 a hs)
      have h2 := ih s1 h
      simp only [List.length_cons]
      omega

theorem movesLeft_init (cfg : Config) :
    movesLeft (initState cfg) = 7 * cfg.collectors.length + 2 := by
  have h : ∀ l : List Collector,
      ((l.map (fun c => ({ c := c, phase := Phase.blocked } : CollectorUnit))).map
        (fun u => u.phase.weight)).sum = 7 * l.length := by
    intro l
    induction l with
    | nil => simp
    | cons c l ih => simp only [List.map_cons, List.sum_cons, ih, List.length_cons]; simp; omega
  simp only [movesLeft, initState, h]
  simp

/-- A state whose loop is not over has an enabled move, when there is at least one slot. -/
theorem progress (cfg : Config) (s : State) (hinv : Inv cfg s) (hk : 1 ≤ cfg.concurrency)
    (hl : s.loopDone = false) : ∃ a s', step cfg s a = some s' := by
  obtain ⟨h1, h2, h3, h4, h5, h6, h7, h8, h9, h10, h11, h12⟩ := hinv
  have hlen : s.units.length = cfg.collectors.length := by
    rw [← h1, List.length_map]
  by_cases hmid : ∃ u ∈ s.units, u.phase ≠ Phase.blocked ∧ u.phase ≠ Phase.done
  · obtain ⟨u, hu, hb, hd⟩ := hmid
    obtain ⟨l1, l2, hsplit⟩ := List.append_of_mem hu
    obtain ⟨c, p⟩ := u
    rw [hsplit] at h2 h4 h9 hlen
    have c1 := List.countP_le_length (fun u : CollectorUnit => !u.phase.unsent) (l := l1)
    have c2 := List.countP_le_length (fun u : CollectorUnit => !u.phase.unsent) (l := l2)
    simp [List.countP_append, List.countP_cons] at h2 h4 h9 hlen
    cases p with
    | blocked => exact absurd rfl hb
    | done => exact absurd rfl hd
    | acquired => exact ⟨_, _, moves_step _ _ _ _ (Moves.start s l1 l2 c hsplit)⟩
    | started =>
      exact ⟨_, _, moves_step _ _ _ _ (Moves.collect s l1 l2 c CollectReturn.empty hsplit)⟩
    | collected r =>
      simp at h9
      exact ⟨_, _, moves_step _ _ _ _ (Moves.send s l1 l2 c r hsplit (by omega))⟩
    | sent =>
      simp at h2
      exact ⟨_, _, moves_step _ _ _ _ (Moves.release s l1 l2 c hsplit (by omega))⟩
    | released =>
      simp at h4
      exact ⟨_, _, moves_step _ _ _ _ (Moves.done s l1 l2 c hsplit (by omega))⟩
  · have hall : ∀ u ∈ s.units, u.phase = Phase.blocked ∨ u.phase = Phase.done := by
      intro u hu
      by_cases hb : u.phase = Phase.blocked
      · exact Or.inl hb
      · by_cases hd : u.phase = Phase.done
        · exact Or.inr hd
        · exact absurd ⟨u, hu, hb, hd⟩ hmid
    by_cases hblk : ∃ u ∈ s.units, u.phase = Phase.blocked
    · obtain ⟨u, hu, hb⟩ := hblk
      obtain ⟨l1, l2, hsplit⟩ := List.append_of_mem hu
      obtain ⟨c, p⟩ := u
      simp only at hb
      subst hb
      have hzero : s.units.countP (fun u => u.phase.holdsSlot) = 0 := by
        rw [List.countP_eq_zero]
        intro u hu
        rcases hall u hu with h | h <;> simp [h]
      exact ⟨_, _, moves_step _ _ _ _ (Moves.acquire s l1 l2 c hsplit (by omega))⟩
    · have hzero : s.units.countP (fun u => u.phase.live) = 0 := by
        rw [List.countP_eq_zero]
        intro u hu
        rcases hall u hu with h | h
        · exact absurd ⟨u, hu, h⟩ hblk
        · simp [h]
      cases hc : s.closed with
      | false => exact ⟨_, _, moves_step _ _ _ _ (Moves.close s (by omega) hc)⟩
      | true =>
        cases hch : s.resultsCh with
        | nil => exact ⟨_, _, moves_step _ _ _ _ (Moves.finish s hc hch hl)⟩
        | cons r rest => exact ⟨_, _, moves_step _ _ _ _ (Moves.recv s r rest hch hl)⟩

/-- Every reachable state can be run on to the end of the result loop. -/
theorem completion (cfg : Config) (hk : 1 ≤ cfg.concurrency) (n : Nat) :
    ∀ s : State, movesLeft s ≤ n → Inv cfg s →
      ∃ rest s', run cfg s rest = some s' ∧ s'.loopDone = true := by
  induction n with
  | zero =>
    intro s hn _
    refine ⟨[], s, rfl, ?_⟩
    cases hl : s.loopDone with
    | true => rfl
    | false => simp [movesLeft, hl] at hn
  | succ n ih =>
    intro s hn hinv
    cases hl : s.loopDone with
    | true => exact ⟨[], s, rfl, hl⟩
    | false =>
      obtain ⟨a, s1, hs⟩ := progress cfg s hinv hk hl
      have hm := moves_measure cfg s s1 a (step_moves cfg s s1 a hs)
      obtain ⟨rest, s2, hr, hd⟩ := ih s1 (by omega)
        (inv_step cfg s s1 a hinv (step_moves cfg s s1 a hs))
      exact ⟨a :: rest, s2, by simp [run, hs, hr], hd⟩

theorem perm_map_lift {α β : Type} (f : α → β) (B : List β) :
    ∀ A : List α, (A.map f).Perm B → ∃ L, A.Perm L ∧ L.map f = B := by
  induction B with
  | nil =>
    intro A h
    have : A = [] := by simpa using h.eq_nil
    exact ⟨[], by simp [this], rfl⟩
  | cons b B ih =>
    intro A h
    have hb : b ∈ A.map f := h.symm.subset (List.mem_cons_self b B)
    obtain ⟨a, ha, hfa⟩ := List.mem_map.1 hb
    obtain ⟨A1, A2, hA⟩ := List.append_of_mem ha
    have hperm : A.Perm (a :: (A1 ++ A2)) := by
      rw [hA]; exact List.perm_middle
    have h2 : ((A1 ++ A2).map f).Perm B := by
      have := (hperm.map f).symm.trans h
      rw [List.map_cons, hfa] at this
      exact this.cons_inv
    obtain ⟨L, hL, hLm⟩ := ih (A1 ++ A2) h2
    exact ⟨a :: L, hperm.trans (hL.cons a), by simp [hLm, hfa]⟩

/-- At the end of the result loop the IDs of `allResults` are the IDs of the collectors. -/
theorem final_ids (cfg : Config) (s : State) (hinv : Inv cfg s) (hl : s.loopDone = true) :
    (s.main.allResults.map (fun r => r.CollectorID)).Perm (cfg.collectors.map (fun c => c.ID)) := by
  obtain ⟨h1, h2, h3, h4, h5, h6, h7, h8, h9, h10, h11, h12⟩ := hinv
  obtain ⟨hc, hch⟩ := h6 hl
  have hw := h5 hc
  rw [hw] at h4
  have hdone : ∀ u ∈ s.units, u.phase = Phase.done := by
    intro u hu
    have := (List.countP_eq_zero.1 h4.symm) u hu
    cases hp : u.phase <;> simp [hp] at this ⊢
  have hfil : s.units.filter (fun u => u.phase.unsent) = [] := by
    rw [List.filter_eq_nil_iff]
    intro u hu
    simp [hdone u hu]
  rw [hfil, hch] at h7
  simp only [List.append_nil, List.map_nil] at h7
  rw [← h1, List.map_map]
  exact h7

/-! ### Results of the orchestration -/

theorem init_stuck (cfg : Config) (h0 : cfg.concurrency = 0) (hn : cfg.collectors ≠ []) :
    ∀ a, step cfg (initState cfg) a = none := by
  intro a
  cases hs : step cfg (initState cfg) a with
  | none => rfl
  | some s' =>
    exfalso
    have hm := step_moves cfg _ _ _ hs
    have hphase : ∀ u ∈ (initState cfg).units, u.phase = Phase.blocked := by
      intro u hu
      simp only [initState, List.mem_map] at hu
      obtain ⟨c, _, rfl⟩ := hu
      rfl
    cases hm with
    | acquire l1 l2 c hu hsem => omega
    | start l1 l2 c hu => have := hphase ⟨c, Phase.acquired⟩ (by simp [hu]); simp at this
    | collect l1 l2 c ret hu => have := hphase ⟨c, Phase.started⟩ (by simp [hu]); simp at this
    | send l1 l2 c r hu hcap => have := hphase ⟨c, Phase.collected r⟩ (by simp [hu]); simp at this
    | release l1 l2 c hu hsem => have := hphase ⟨c, Phase.sent⟩ (by simp [hu]); simp at this
    | done l1 l2 c hu hw => have := hphase ⟨c, Phase.released⟩ (by simp [hu]); simp at this
    | close hw hc =>
      simp only [initState, List.length_eq_zero] at hw
      exact hn hw
    | recv r rest hch hl => simp [initState] at hch
    | finish hc hch hl => simp [initState] at hc

theorem run_of_stuck (cfg : Config) (s s' : State) (acts : List Action)
    (hstuck : ∀ a, step cfg s a = none) (h : run cfg s acts = some s') : s' = s := by
  cases acts with
  | nil => simpa [run] using h.symm
  | cons a acts => simp [run, hstuck a] at h

/-- C1, as the claim states it, fails without a slot: with `-concurrency 0` and three
scheduled collectors no move is ever enabled, so no interleaving reaches the end of the
result loop and `allResults` stays empty. -/
theorem orchestration_results_counterexample :
    zeroConfig.collectors.length = 3 ∧
    ¬ ∃ acts s, exec zeroConfig acts = some s ∧
        (s.loopDone = true ∨ s.main.allResults ≠ []) := by
  refine ⟨by decide, ?_⟩
  rintro ⟨acts, s, hrun, hbad⟩
  have hs : s = initState zeroConfig :=
    run_of_stuck zeroConfig _ _ acts (init_stuck zeroConfig rfl (by decide)) hrun
  subst hs
  rcases hbad with h | h
  · simp [initState] at h
  · simp [initState, MainState.init] at h

/-- C1 (amended): with a concurrency limit of at least 1, every interleaving of the
orchestration is at most `7 * n + 2` moves long, has an enabled move as long as the result
loop is not over, and can be run on to the end of the result loop; and when the result
loop is over, `allResults` has exactly `n` results and is a permutation of a list with one
result per scheduled collector, in order, carrying that collector's ID, so that distinct
scheduled IDs give distinct result IDs. -/
theorem orchestration_results (cfg : Config) (hk : 1 ≤ cfg.concurrency)
    (acts : List Action) (s : State) (hrun : exec cfg acts = some s) :
    acts.length ≤ 7 * cfg.collectors.length + 2 ∧
    (s.loopDone = false → ∃ a s', step cfg s a = some s') ∧
    (∃ rest s', exec cfg (acts ++ rest) = some s' ∧ s'.loopDone = true) ∧
    (s.loopDone = true →
      s.main.allResults.length = cfg.collectors.length ∧
      (∃ L : List CollectionResult,
        L.map (fun r => r.CollectorID) = cfg.collectors.map (fun c => c.ID) ∧
        s.main.allResults.Perm L) ∧
      ((cfg.collectors.map (fun c => c.ID)).Nodup →
        (s.main.allResults.map (fun r => r.CollectorID)).Nodup)) := by
  have hinv := inv_exec cfg acts s hrun
  refine ⟨?_, ?_, ?_, ?_⟩
  · have h1 := run_measure cfg acts _ s hrun
    rw [movesLeft_init] at h1
    omega
  · exact progress cfg s hinv hk
  · obtain ⟨rest, s', hr, hd⟩ := completion cfg hk (movesLeft s) s (le_refl _) hinv
    refine ⟨rest, s', ?_, hd⟩
    unfold exec at hrun ⊢
    rw [run_append, hrun]
    simpa using hr
  · intro hl
    have hperm := final_ids cfg s hinv hl
    refine ⟨?_, ?_, ?_⟩
    · simpa using hperm.length_eq
    · obtain ⟨L, hL, hLm⟩ := perm_map_lift _ _ _ hperm
      exact ⟨L, hLm, hL⟩
    · intro hnd
      exact (hperm.nodup_iff).2 hnd

/-- The run `twoTrace` of two collectors under one slot ends with two results. -/
theorem orchestration_results_witness :
    ∃ s, exec twoConfig twoTrace = some s ∧ s.loopDone = true ∧
      s.main.allResults.length = 2 ∧
      (s.main.allResults.map (fun r => r.CollectorID)).Nodup := by
  have hsome : (exec twoConfig twoTrace).isSome = true := by decide
  obtain ⟨s, hs⟩ := Option.isSome_iff_exists.1 hsome
  have hld : s.loopDone = true := by
    have h : (exec twoConfig twoTrace).map (fun s => s.loopDone) = some true := by decide
    rw [hs] at h
    simpa using h
  have h := orchestration_results twoConfig (by decide) twoTrace s hs
  obtain ⟨hlen, _, hnd⟩ := h.2.2.2 hld
  exact ⟨s, hs, hld, hlen, hnd (by decide)⟩

/-! ### A call to `Collect` that does not return -/

theorem getElem?_append_cons_ne {α : Type} (l1 l2 : List α) (a b : α) (i : Nat)
    (h : i ≠ l1.length) : (l1 ++ a :: l2)[i]? = (l1 ++ b :: l2)[i]? := by
  induction l1 generalizing i with
  | nil =>
    cases i with
    | zero => simp at h
    | succ j => simp
  | cons x xs ih =>
    cases i with
    | zero => simp
    | succ j =>
      have hj : j ≠ xs.length := by
        intro hj; apply h; simp [hj]
      simpa using ih j hj

theorem moves_beforeReturn (cfg : Config) (s s' : State) (a : Action) (i : Nat)
    (c : Collector) (hm : Moves cfg s a s') (hno : ∀ ret, a ≠ Action.collect i ret)
    (h : ∃ p, s.units[i]? = some ⟨c, p⟩ ∧ p.beforeReturn = true) :
    ∃ p, s'.units[i]? = some ⟨c, p⟩ ∧ p.beforeReturn = true := by
  obtain ⟨p, hp, hb⟩ := h
  cases hm with
  | acquire l1 l2 c' hu hs =>
    by_cases hi : i = l1.length
    · subst hi
      rw [hu, getElem?_append_cons] at hp
      simp only [Option.some.injEq, CollectorUnit.mk.injEq] at hp
      obtain ⟨rfl, rfl⟩ := hp
      exact ⟨Phase.acquired, getElem?_append_cons _ _ _, rfl⟩
    · refine ⟨p, ?_, hb⟩
      rw [hu] at hp
      simpa [getElem?_append_cons_ne l1 l2 _ ⟨c', Phase.blocked⟩ i hi] using hp
  | start l1 l2 c' hu =>
    by_cases hi : i = l1.length
    · subst hi
      rw [hu, getElem?_append_cons] at hp
      simp only [Option.some.injEq, CollectorUnit.mk.injEq] at hp
      obtain ⟨rfl, rfl⟩ := hp
      exact ⟨Phase.started, getElem?_append_cons _ _ _, rfl⟩
    · refine ⟨p, ?_, hb⟩
      rw [hu] at hp
      simpa [getElem?_append_cons_ne l1 l2 _ ⟨c', Phase.acquired⟩ i hi] using hp
  | collect l1 l2 c' ret hu =>
    by_cases hi : i = l1.length
    · subst hi
      exact absurd rfl (hno ret)
    · refine ⟨p, ?_, hb⟩
      rw [hu] at hp
      simpa [getElem?_append_cons_ne l1 l2 _ ⟨c', Phase.started⟩ i hi] using hp
  | send l1 l2 c' r hu hcap =>
    by_cases hi : i = l1.length
    · subst hi
      rw [hu, getElem?_append_cons] at hp
      simp only [Option.some.injEq, CollectorUnit.mk.injEq] at hp
      obtain ⟨rfl, rfl⟩ := hp
      simp [Phase.beforeReturn] at hb
    · refine ⟨p, ?_, hb⟩
      rw [hu] at hp
      simpa [getElem?_append_cons_ne l1 l2 _ ⟨c', Phase.collected r⟩ i hi] using hp
  | release l1 l2 c' hu hs =>
    by_cases hi : i = l1.length
    · subst hi
      rw [hu, getElem?_append_cons] at hp
      simp only [Option.some.injEq, CollectorUnit.mk.injEq] at hp
      obtain ⟨rfl, rfl⟩ := hp
      simp [Phase.beforeReturn] at hb
    · refine ⟨p, ?_, hb⟩
      rw [hu] at hp
      simpa [getElem?_append_cons_ne l1 l2 _ ⟨c', Phase.sent⟩ i hi] using hp
  | done l1 l2 c' hu hw =>
    by_cases hi : i = l1.length
    · subst hi
      rw [hu, getElem?_append_cons] at hp
      simp only [Option.some.injEq, CollectorUnit.mk.injEq] at hp
      obtain ⟨rfl, rfl⟩ := hp
      simp [Phase.beforeReturn] at hb
    · refine ⟨p, ?_, hb⟩
      rw [hu] at hp
      simpa [getElem?_append_cons_ne l1 l2 _ ⟨c', Phase.released⟩ i hi] using hp
  | close hw hc => exact ⟨p, hp, hb⟩
  | recv r rest hch hl => exact ⟨p, hp, hb⟩
  | finish hc hch hl => exact ⟨p, hp, hb⟩

theorem run_beforeReturn (cfg : Config) (i : Nat) (c : Collector) (acts : List Action)
    (s s' : State) (hrun : run cfg s acts = some s')
    (hno : ∀ a ∈ acts, ∀ ret, a ≠ Action.collect i ret)
    (h : ∃ p, s.units[i]? = some ⟨c, p⟩ ∧ p.beforeReturn = true) :
    ∃ p, s'.units[i]? = some ⟨c, p⟩ ∧ p.beforeReturn = true := by
  induction acts generalizing s with
  | nil =>
    simp only [run, Option.some.injEq] at hrun
    subst hrun
    exact h
  | cons a acts ih =>
    simp only [run] at hrun
    cases hs : step cfg s a with
    | none => simp [hs] at hrun
    | some s1 =>
      simp only [hs] at hrun
      exact ih s1 hrun (fun b hb => hno b (List.mem_cons_of_mem a hb))
        (moves_beforeReturn cfg s s1 a i c (step_moves cfg s s1 a hs)
          (hno a (List.mem_cons_self a acts)) h)

/-- As long as the call to `Collect` of the collector `c`, scheduled at place `i`, has not
returned: the channel is not closed, the result loop is not over, fewer results exist than
collectors, and with distinct IDs no result carries the ID of `c`. -/
theorem hung_core (cfg : Config) (i : Nat) (c : Collector)
    (hc : cfg.collectors[i]? = some c) (acts : List Action) (s : State)
    (hrun : exec cfg acts = some s)
    (hno : ∀ a ∈ acts, ∀ ret, a ≠ Action.collect i ret) :
    (∃ p, s.units[i]? = some ⟨c, p⟩ ∧ p.beforeReturn = true) ∧
    s.closed = false ∧ s.loopDone = false ∧
    s.main.allResults.length + s.resultsCh.length < cfg.collectors.length ∧
    ((cfg.collectors.map (fun c => c.ID)).Nodup →
      ∀ r ∈ s.main.allResults ++ s.resultsCh, r.CollectorID ≠ c.ID) := by
  have hinit : ∃ p, (initState cfg).units[i]? = some ⟨c, p⟩ ∧ p.beforeReturn = true := by
    refine ⟨Phase.blocked, ?_, rfl⟩
    simp [initState, List.getElem?_map, hc]
  have hunit := run_beforeReturn cfg i c acts _ s hrun hno hinit
  obtain ⟨p, hp, hb⟩ := hunit
  obtain ⟨h1, h2, h3, h4, h5, h6, h7, h8, h9, h10, h11, h12⟩ := inv_exec cfg acts s hrun
  obtain ⟨l1, l2, hsplit, _, _⟩ := getElem?_decomp _ _ _ hp
  have hlive : p.live = true := by cases p <;> simp [Phase.beforeReturn] at hb ⊢
  have hunsent : p.unsent = true := by cases p <;> simp [Phase.beforeReturn] at hb ⊢
  have hlen : s.units.length = cfg.collectors.length := by
    rw [← h1, List.length_map]
  have hclosed : s.closed = false := by
    cases hcl : s.closed with
    | false => rfl
    | true =>
      have hw := h5 hcl
      rw [hw, hsplit] at h4
      simp [List.countP_append, List.countP_cons, hlive] at h4
      omega
  have hloop : s.loopDone = false := by
    cases hl : s.loopDone with
    | false => rfl
    | true =>
      have := (h6 hl).1
      simp [hclosed] at this
  refine ⟨⟨p, hp, hb⟩, hclosed, hloop, ?_, ?_⟩
  · rw [hsplit] at h9 hlen
    have c1 := List.countP_le_length (fun u : CollectorUnit => !u.phase.unsent) (l := l1)
    have c2 := List.countP_le_length (fun u : CollectorUnit => !u.phase.unsent) (l := l2)
    simp [List.countP_append, List.countP_cons, hunsent] at h9 hlen
    omega
  · intro hnd r hr heq
    have hids : s.units.map (fun u => u.c.ID) = cfg.collectors.map (fun c => c.ID) := by
      rw [← h1, List.map_map]; rfl
    rw [hids] at h7
    have hnd2 := (h7.nodup_iff).2 hnd
    have hdis := List.disjoint_of_nodup_append hnd2
    have hin1 : c.ID ∈ (s.main.allResults ++ s.resultsCh).map (fun r => r.CollectorID) :=
      List.mem_map.2 ⟨r, hr, heq⟩
    have hin2 : c.ID ∈ (s.units.filter (fun u => u.phase.unsent)).map (fun u => u.c.ID) := by
      refine List.mem_map.2 ⟨⟨c, p⟩, ?_, rfl⟩
      rw [List.mem_filter]
      exact ⟨by simp [hsplit], hunsent⟩
    exact hdis hin1 hin2

/-- C5, as the claim states it, fails: in no interleaving of `twoConfig` in which the call
to `Collect` of `net` does not return does a result for `net` exist, received or waiting,
and in none is `resultsCh` closed or the result loop over. -/
theorem hung_collector_counterexample :
    ¬ ∃ acts s, exec twoConfig acts = some s ∧
      (∀ a ∈ acts, ∀ ret, a ≠ Action.collect 0 ret) ∧
      (s.closed = true ∨ s.loopDone = true ∨
        ∃ r ∈ s.main.allResults ++ s.resultsCh, r.CollectorID = "net".toList) := by
  rintro ⟨acts, s, hrun, hno, hbad⟩
  obtain ⟨_, hc, hl, _, hid⟩ :=
    hung_core twoConfig 0 (sampleRegistry.get ⟨0, by decide⟩) (by decide) acts s hrun hno
  rcases hbad with h | h | ⟨r, hr, hreq⟩
  · simp [hc] at h
  · simp [hl] at h
  · exact hid (by decide) r hr hreq

/-- C5 (amended): the orchestration calls `Collect` in the unit itself and waits for its
return. As long as the call of the collector scheduled at place `i` has not returned,
`resultsCh` is not closed and the result loop is not over, fewer results exist than
collectors, with distinct IDs no result (failed or not) carries that collector's ID, a
result that waits in `resultsCh` can still be received, and with a single slot no unit
can acquire the slot once that collector is started. With a slot and every call
returning, the run can be continued to the end of the result loop. -/
theorem hung_collector_stalls (cfg : Config) (i : Nat) (c : Collector)
    (hc : cfg.collectors[i]? = some c) (acts : List Action) (s : State)
    (hrun : exec cfg acts = some s)
    (hno : ∀ a ∈ acts, ∀ ret, a ≠ Action.collect i ret) :
    s.closed = false ∧ s.loopDone = false ∧
    s.main.allResults.length + s.resultsCh.length < cfg.collectors.length ∧
    ((cfg.collectors.map (fun c => c.ID)).Nodup →
      ∀ r ∈ s.main.allResults ++ s.resultsCh, r.CollectorID ≠ c.ID) ∧
    (∀ r rest, s.resultsCh = r :: rest → ∃ s', step cfg s Action.recv = some s') ∧
    (cfg.concurrency = 1 → s.units[i]? = some ⟨c, Phase.started⟩ →
      ∀ j, step cfg s (Action.acquire j) = none) ∧
    (1 ≤ cfg.concurrency →
      ∃ rest s', exec cfg (acts ++ rest) = some s' ∧ s'.loopDone = true) := by
  obtain ⟨_, hcl, hl, hlt, hid⟩ := hung_core cfg i c hc acts s hrun hno
  have hinv := inv_exec cfg acts s hrun
  refine ⟨hcl, hl, hlt, hid, ?_, ?_, ?_⟩
  · intro r rest hch
    exact ⟨_, moves_step _ _ _ _ (Moves.recv s r rest hch hl)⟩
  · intro hk hst j
    obtain ⟨l1, l2, hsplit, _, _⟩ := getElem?_decomp _ _ _ hst
    have h2 := hinv.sem
    rw [hsplit] at h2
    simp [List.countP_append, List.countP_cons] at h2
    cases hs : step cfg s (Action.acquire j) with
    | none => rfl
    | some s' =>
      have hm := step_moves cfg _ _ _ hs
      cases hm with
      | acquire l1' l2' c' hu hsem => omega
  · intro hk
    obtain ⟨rest, s', hr, hd⟩ := completion cfg hk (movesLeft s) s (le_refl _) hinv
    refine ⟨rest, s', ?_, hd⟩
    unfold exec at hrun ⊢
    rw [run_append, hrun]
    simpa using hr

/-- Under one slot, `net` started and its call to `Collect` not returned: `proc` cannot
acquire the slot and nothing is reported. -/
theorem hung_collector_stalls_witness :
    ∃ s, exec twoConfig [Action.acquire 0, Action.start 0] = some s ∧
      s.loopDone = false ∧ s.main.allResults.length + s.resultsCh.length < 2 ∧
      step twoConfig s (Action.acquire 1) = none := by
  have hsome : (exec twoConfig [Action.acquire 0, Action.start 0]).isSome = true := by decide
  obtain ⟨s, hs⟩ := Option.isSome_iff_exists.1 hsome
  have hst : (exec twoConfig [Action.acquire 0, Action.start 0]).bind (fun s => s.units[0]?)
      = some ⟨sampleRegistry.get ⟨0, by decide⟩, Phase.started⟩ := by decide
  rw [hs] at hst
  have h := hung_collector_stalls twoConfig 0 (sampleRegistry.get ⟨0, by decide⟩) (by decide)
    [Action.acquire 0, Action.start 0] s hs (by simp)
  exact ⟨s, hs, h.2.1, h.2.2.1, h.2.2.2.2.2.1 rfl (by simpa using hst) 1⟩

/-! ### The identifiers given to the progress tracker -/

/-- C6: the run of the collector `net`, whose name is `Network Connections`, gives the
tracker `Start` under the name and `Success` under the ID; the two differ, and a tracker
that keeps one record per identifier ends with the record of the name still running and
the record of the ID never started. -/
theorem tracker_identifier_mismatch :
    (exec oneConfig oneTrace).map (fun s => s.main.tracker)
      = some [TrackerCall.Start "Network Connections".toList,
              TrackerCall.Success "net".toList 0, TrackerCall.Finish] ∧
    "Network Connections".toList ≠ "net".toList ∧
    (exec oneConfig oneTrace).map (fun s => s.loopDone) = some true ∧
    (exec oneConfig oneTrace).map
      (fun s => trackerRecords s.main.tracker "Network Connections".toList)
      = some ProgressState.running ∧
    (exec oneConfig oneTrace).map (fun s => trackerRecords s.main.tracker "net".toList)
      = some ProgressState.pending := by
  decide

/-! ### Deadlines -/

theorem wrapInt64_eq (x : Int) (h1 : -9223372036854775808 ≤ x) (h2 : x < 9223372036854775808) :
    wrapInt64 x = x := by
  unfold wrapInt64
  omega

theorem durationOfSeconds_eq (n : Int) (h1 : -9223372036 ≤ n) (h2 : n ≤ 9223372036) :
    durationOfSeconds n = n * Second := by
  unfold durationOfSeconds
  rw [wrapInt64_eq n (by omega) (by omega)]
  unfold Second
  rw [wrapInt64_eq _ (by omega) (by omega)]

/-- C9, as the claim states it, fails on overflow: a global timeout of 9223372037 seconds
does not fit an `int64` of nanoseconds; the product wraps to a negative duration, and the
global context and a collector context under it are expired at once, long before either
deadline of the claim. -/
theorem collector_deadline_counterexample :
    durationOfSeconds 9223372037 = -9223372036709551616 ∧
    (globalContext 0 9223372037).expired 0 = true ∧
    (collectorContext (globalContext 0 9223372037) 1 60).expired 1 = true ∧
    ¬ (min (0 + 9223372037 * Second) (1 + 60 * Second) ≤ 1) := by
  decide

/-! ### The tracker log in general -/

theorem processResult_log (m : MainState) (r : CollectionResult) :
    startNames (processResult m r).tracker = startNames m.tracker ∧
    endIds (processResult m r).tracker = endIds m.tracker ++ [r.CollectorID] := by
  unfold processResult startNames endIds
  cases hE : r.Error with
  | some e => simp [List.filterMap_append]
  | none => by_cases hA : r.Artifacts.length > 0 <;> simp [hA, List.filterMap_append]

theorem logInv_init (cfg : Config) : LogInv (initState cfg) := by
  have h : ∀ l : List Collector,
      (l.map (fun c => ({ c := c, phase := Phase.blocked } : CollectorUnit))).filter
        (fun u => u.phase.hasStarted) = [] := by
    intro l
    induction l with
    | nil => simp
    | cons c l ih => simp [List.filter_cons, ih]
  refine ⟨?_, ?_⟩
  · simp [initState, MainState.init, endIds]
  · simp only [initState, h]
    simp [MainState.init, startNames]

theorem logInv_step (cfg : Config) (s s' : State) (a : Action) (hinv : LogInv s)
    (hm : Moves cfg s a s') : LogInv s' := by
  obtain ⟨h1, h2⟩ := hinv
  cases hm with
  | acquire l1 l2 c hu hs =>
    rw [hu] at h2
    exact ⟨h1, by simpa [List.filter_append, List.filter_cons] using h2⟩
  | start l1 l2 c hu =>
    rw [hu] at h2
    refine ⟨?_, ?_⟩
    · simpa [endIds, List.filterMap_append] using h1
    · simp [List.filter_append, List.filter_cons] at h2
      simp only [startNames, List.filterMap_append, List.filter_append, List.filter_cons,
        Phase.hasStarted_started, if_true, List.map_append, List.map_cons]
      simp only [List.filterMap_cons, List.filterMap_nil]
      refine List.Perm.trans (List.perm_append_singleton _ _) ?_
      exact (List.Perm.cons _ h2).trans List.perm_middle.symm
  | collect l1 l2 c ret hu =>
    rw [hu] at h2
    exact ⟨h1, by simpa [List.filter_append, List.filter_cons] using h2⟩
  | send l1 l2 c r hu hcap =>
    rw [hu] at h2
    exact ⟨h1, by simpa [List.filter_append, List.filter_cons] using h2⟩
  | release l1 l2 c hu hs =>
    rw [hu] at h2
    exact ⟨h1, by simpa [List.filter_append, List.filter_cons] using h2⟩
  | done l1 l2 c hu hw =>
    rw [hu] at h2
    exact ⟨h1, by simpa [List.filter_append, List.filter_cons] using h2⟩
  | close hw hc => exact ⟨h1, h2⟩
  | recv r rest hch hl =>
    obtain ⟨t1, t2⟩ := processResult_log s.main r
    refine ⟨?_, ?_⟩
    · simp [t2, h1, processResult_allResults]
    · simpa [t1] using h2
  | finish hc hch hl =>
    refine ⟨?_, ?_⟩
    · simpa [endIds, List.filterMap_append] using h1
    · simpa [startNames, List.filterMap_append] using h2

theorem logInv_run (cfg : Config) (acts : List Action) (s s' : State) (hinv : LogInv s)
    (h : run cfg s acts = some s') : LogInv s' := by
  induction acts generalizing s with
  | nil =>
    simp only [run, Option.some.injEq] at h
    subst h
    exact hinv
  | cons a acts ih =>
    simp only [run] at h
    cases hs : step cfg s a with
    | none => simp [hs] at h
    | some s1 =>
      simp only [hs] at h
      exact ih s1 (logInv_step cfg s s1 a hinv (step_moves cfg s s1 a hs)) h

/-- In every interleaving run to the end of the result loop, the calls `tracker.Start`
carry the names of the scheduled collectors and the calls `tracker.Success` and
`tracker.Fail` carry their IDs, one call of each kind per collector. -/
theorem tracker_log_ids (cfg : Config) (acts : List Action) (s : State)
    (hrun : exec cfg acts = some s) (hl : s.loopDone = true) :
    (startNames s.main.tracker).Perm (cfg.collectors.map (fun c => c.Name)) ∧
    (endIds s.main.tracker).Perm (cfg.collectors.map (fun c => c.ID)) ∧
    endIds s.main.tracker = s.main.allResults.map (fun r => r.CollectorID) := by
  have hinv := inv_exec cfg acts s hrun
  obtain ⟨e, st⟩ := logInv_run cfg acts _ s (logInv_init cfg) hrun
  have hids := final_ids cfg s hinv hl
  have hw := hinv.closed (hinv.loopDone hl).1
  have h4 := hinv.wg
  rw [hw] at h4
  have hfil : s.units.filter (fun u => u.phase.hasStarted) = s.units := by
    rw [List.filter_eq_self]
    intro u hu
    have := (List.countP_eq_zero.1 h4.symm) u hu
    cases hp : u.phase <;> simp [hp] at this ⊢
  refine ⟨?_, ?_, e⟩
  · rw [hfil] at st
    rw [← hinv.collectors, List.map_map]
    exact st
  · rw [e]; exact hids

/-- In every state the orchestration reaches, the counters of `main` agree with the
results received so far; at the end of the result loop the successful and the failed
collectors add up to the scheduled ones. -/
theorem orchestration_counts (cfg : Config) (acts : List Action) (s : State)
    (hrun : exec cfg acts = some s) :
    AggOK s.main ∧
    (s.loopDone = true →
      s.main.successfulCollectors + s.main.failedCollectors = cfg.collectors.length) := by
  have hinv := inv_exec cfg acts s hrun
  refine ⟨hinv.agg, ?_⟩
  intro hl
  obtain ⟨h1, h2, _, _⟩ := hinv.agg
  have hlen := (final_ids cfg s hinv hl).length_eq
  simp only [List.length_map] at hlen
  rw [h1, h2, countP_isSome_add_isNone, hlen]

/-! ## Theorems: the timed orchestration -/

/-! ### The timed phase predicates on each phase -/

@[simp] theorem timedPhase_holdsSlot_blocked :
    TimedPhase.holdsSlot TimedPhase.blocked = false := rfl
@[simp] theorem timedPhase_holdsSlot_acquired :
    TimedPhase.holdsSlot TimedPhase.acquired = true := rfl
@[simp] theorem timedPhase_holdsSlot_started :
    TimedPhase.holdsSlot TimedPhase.started = true := rfl
@[simp] theorem timedPhase_holdsSlot_scoped :
    TimedPhase.holdsSlot TimedPhase.scoped = true := rfl
@[simp] theorem timedPhase_holdsSlot_collected (r : CollectionResult) :
    TimedPhase.holdsSlot (TimedPhase.collected r) = true := rfl
@[simp] theorem timedPhase_holdsSlot_sent :
    TimedPhase.holdsSlot TimedPhase.sent = true := rfl
@[simp] theorem timedPhase_holdsSlot_released :
    TimedPhase.holdsSlot TimedPhase.released = false := rfl
@[simp] theorem timedPhase_holdsSlot_done :
    TimedPhase.holdsSlot TimedPhase.done = false := rfl
@[simp] theorem timedPhase_holdsSlot_panicked :
    TimedPhase.holdsSlot TimedPhase.panicked = true := rfl
@[simp] theorem timedPhase_holdsSlot_panicReleased :
    TimedPhase.holdsSlot TimedPhase.panicReleased = false := rfl
@[simp] theorem timedPhase_holdsSlot_panicDone :
    TimedPhase.holdsSlot TimedPhase.panicDone = false := rfl
@[simp] theorem timedPhase_hasStarted_blocked :
    TimedPhase.hasStarted TimedPhase.blocked = false := rfl
@[simp] theorem timedPhase_hasStarted_acquired :
    TimedPhase.hasStarted TimedPhase.acquired = false := rfl
@[simp] theorem timedPhase_hasStarted_started :
    TimedPhase.hasStarted TimedPhase.started = true := rfl
@[simp] theorem timedPhase_hasStarted_scoped :
    TimedPhase.hasStarted TimedPhase.scoped = true := rfl
@[simp] theorem timedPhase_hasStarted_collected (r : CollectionResult) :
    TimedPhase.hasStarted (TimedPhase.collected r) = true := rfl
@[simp] theorem timedPhase_hasStarted_sent :
    TimedPhase.hasStarted TimedPhase.sent = true := rfl
@[simp] theorem timedPhase_hasStarted_released :
    TimedPhase.hasStarted TimedPhase.released = true := rfl
@[simp] theorem timedPhase_hasStarted_done :
    TimedPhase.hasStarted TimedPhase.done = true := rfl
@[simp] theorem timedPhase_hasStarted_panicked :
    TimedPhase.hasStarted TimedPhase.panicked = true := rfl
@[simp] theorem timedPhase_hasStarted_panicReleased :
    TimedPhase.hasStarted TimedPhase.panicReleased = true := rfl
@[simp] theorem timedPhase_hasStarted_panicDone :
    TimedPhase.hasStarted TimedPhase.panicDone = true := rfl
@[simp] theorem timedPhase_collecting_blocked :
    TimedPhase.collecting TimedPhase.blocked = false := rfl
@[simp] theorem timedPhase_collecting_acquired :
    TimedPhase.collecting TimedPhase.acquired = false := rfl
@[simp] theorem timedPhase_collecting_started :
    TimedPhase.collecting TimedPhase.started = true := rfl
@[simp] theorem timedPhase_collecting_scoped :
    TimedPhase.collecting TimedPhase.scoped = true := rfl
@[simp] theorem timedPhase_collecting_collected (r : CollectionResult) :
    TimedPhase.collecting (TimedPhase.collected r) = true := rfl
@[simp] theorem timedPhase_collecting_sent :
    TimedPhase.collecting TimedPhase.sent = false := rfl
@[simp] theorem timedPhase_collecting_released :
    TimedPhase.collecting TimedPhase.released = false := rfl
@[simp] theorem timedPhase_collecting_done :
    TimedPhase.collecting TimedPhase.done = false := rfl
@[simp] theorem timedPhase_collecting_panicked :
    TimedPhase.collecting TimedPhase.panicked = false := rfl
@[simp] theorem timedPhase_collecting_panicReleased :
    TimedPhase.collecting TimedPhase.panicReleased = false := rfl
@[simp] theorem timedPhase_collecting_panicDone :
    TimedPhase.collecting TimedPhase.panicDone = false := rfl
@[simp] theorem timedPhase_handedOver_blocked :
    TimedPhase.handedOver TimedPhase.blocked = false := rfl
@[simp] theorem timedPhase_handedOver_acquired :
    TimedPhase.handedOver TimedPhase.acquired = false := rfl
@[simp] theorem timedPhase_handedOver_started :
    TimedPhase.handedOver TimedPhase.started = false := rfl
@[simp] theorem timedPhase_handedOver_scoped :
    TimedPhase.handedOver TimedPhase.scoped = false := rfl
@[simp] theorem timedPhase_handedOver_collected (r : CollectionResult) :
    TimedPhase.handedOver (TimedPhase.collected r) = false := rfl
@[simp] theorem timedPhase_handedOver_sent :
    TimedPhase.handedOver TimedPhase.sent = true := rfl
@[simp] theorem timedPhase_handedOver_released :
    TimedPhase.handedOver TimedPhase.released = true := rfl
@[simp] theorem timedPhase_handedOver_done :
    TimedPhase.handedOver TimedPhase.done = true := rfl
@[simp] theorem timedPhase_handedOver_panicked :
    TimedPhase.handedOver TimedPhase.panicked = false := rfl
@[simp] theorem timedPhase_handedOver_panicReleased :
    TimedPhase.handedOver TimedPhase.panicReleased = false := rfl
@[simp] theorem timedPhase_handedOver_panicDone :
    TimedPhase.handedOver TimedPhase.panicDone = false := rfl
@[simp] theorem timedPhase_hasPanicked_blocked :
    TimedPhase.hasPanicked TimedPhase.blocked = false := rfl
@[simp] theorem timedPhase_hasPanicked_acquired :
    TimedPhase.hasPanicked TimedPhase.acquired = false := rfl
@[simp] theorem timedPhase_hasPanicked_started :
    TimedPhase.hasPanicked TimedPhase.started = false := rfl
@[simp] theorem timedPhase_hasPanicked_scoped :
    TimedPhase.hasPanicked TimedPhase.scoped = false := rfl
@[simp] theorem timedPhase_hasPanicked_collected (r : CollectionResult) :
    TimedPhase.hasPanicked (TimedPhase.collected r) = false := rfl
@[simp] theorem timedPhase_hasPanicked_sent :
    TimedPhase.hasPanicked TimedPhase.sent = false := rfl
@[simp] theorem timedPhase_hasPanicked_released :
    TimedPhase.hasPanicked TimedPhase.released = false := rfl
@[simp] theorem timedPhase_hasPanicked_done :
    TimedPhase.hasPanicked TimedPhase.done = false := rfl
@[simp] theorem timedPhase_hasPanicked_panicked :
    TimedPhase.hasPanicked TimedPhase.panicked = true := rfl
@[simp] theorem timedPhase_hasPanicked_panicReleased :
    TimedPhase.hasPanicked TimedPhase.panicReleased = true := rfl
@[simp] theorem timedPhase_hasPanicked_panicDone :
    TimedPhase.hasPanicked TimedPhase.panicDone = true := rfl
@[simp] theorem timedPhase_hasScope_blocked :
    TimedPhase.hasScope TimedPhase.blocked = false := rfl
@[simp] theorem timedPhase_hasScope_acquired :
    TimedPhase.hasScope TimedPhase.acquired = false := rfl
@[simp] theorem timedPhase_hasScope_started :
    TimedPhase.hasScope TimedPhase.started = false := rfl
@[simp] theorem timedPhase_hasScope_scoped :
    TimedPhase.hasScope TimedPhase.scoped = true := rfl
@[simp] theorem timedPhase_hasScope_collected (r : CollectionResult) :
    TimedPhase.hasScope (TimedPhase.collected r) = true := rfl
@[simp] theorem timedPhase_hasScope_sent :
    TimedPhase.hasScope TimedPhase.sent = true := rfl
@[simp] theorem timedPhase_hasScope_released :
    TimedPhase.hasScope TimedPhase.released = true := rfl
@[simp] theorem timedPhase_hasScope_done :
    TimedPhase.hasScope TimedPhase.done = true := rfl
@[simp] theorem timedPhase_hasScope_panicked :
    TimedPhase.hasScope TimedPhase.panicked = true := rfl
@[simp] theorem timedPhase_hasScope_panicReleased :
    TimedPhase.hasScope TimedPhase.panicReleased = true := rfl
@[simp] theorem timedPhase_hasScope_panicDone :
    TimedPhase.hasScope TimedPhase.panicDone = true := rfl

/-! ### Moves of the timed model -/

theorem timedStep_moves (cfg : TimedConfig) (s s' : TimedState) (a : TimedAction)
    (h : timedStep cfg s a = some s') : TimedMoves cfg s a s' := by
  cases a with
  | tick d =>
    simp only [timedStep] at h
    split at h
    · simp at h
    simp only [Option.some.injEq] at h
    subst h
    exact TimedMoves.tick s d
  | acquire i =>
    simp only [timedStep] at h
    split at h
    · simp at h
    split at h
    · rename_i u hget
      obtain ⟨l1, l2, h1, h2, h3⟩ := getElem?_decomp _ _ _ hget
      split at h
      · rename_i hp
        split at h
        · rename_i hg
          simp only [Option.some.injEq] at h
          subst h h2
          simp only [TimedState.setUnit, h3]
          exact TimedMoves.acquire s l1 l2 u  hp h1 hg
        · simp at h
      · simp at h
    · simp at h
  | start i =>
    simp only [timedStep] at h
    split at h
    · simp at h
    split at h
    · rename_i u hget
      obtain ⟨l1, l2, h1, h2, h3⟩ := getElem?_decomp _ _ _ hget
      split at h
      · rename_i hp
        simp only [Option.some.injEq] at h
        subst h h2
        simp only [TimedState.setUnit, h3]
        exact TimedMoves.start s l1 l2 u  hp h1
      · simp at h
    · simp at h
  | scope i =>
    simp only [timedStep] at h
    split at h
    · simp at h
    split at h
    · rename_i u hget
      obtain ⟨l1, l2, h1, h2, h3⟩ := getElem?_decomp _ _ _ hget
      split at h
      · rename_i hp
        simp only [Option.some.injEq] at h
        subst h h2
        simp only [TimedState.setUnit, h3]
        exact TimedMoves.scope s l1 l2 u  hp h1
      · simp at h
    · simp at h
  | collect i ret =>
    simp only [timedStep] at h
    split at h
    · simp at h
    split at h
    · rename_i u hget
      obtain ⟨l1, l2, h1, h2, h3⟩ := getElem?_decomp _ _ _ hget
      split at h
      · rename_i hp
        simp only [Option.some.injEq] at h
        subst h h2
        simp only [TimedState.setUnit, h3]
        exact TimedMoves.collect s l1 l2 u ret hp h1
      · simp at h
    · simp at h
  | panic i =>
    simp only [timedStep] at h
    split at h
    · simp at h
    split at h
    · rename_i u hget
      obtain ⟨l1, l2, h1, h2, h3⟩ := getElem?_decomp _ _ _ hget
      split at h
      · rename_i hp
        simp only [Option.some.injEq] at h
        subst h h2
        simp only [TimedState.setUnit, h3]
        exact TimedMoves.panic s l1 l2 u  hp h1
      · simp at h
    · simp at h
  | send i =>
    simp only [timedStep] at h
    split at h
    · simp at h
    split at h
    · rename_i u hget
      obtain ⟨l1, l2, h1, h2, h3⟩ := getElem?_decomp _ _ _ hget
      split at h
      · rename_i r hp
        split at h
        · rename_i hg
          simp only [Option.some.injEq] at h
          subst h h2
          simp only [TimedState.setUnit, h3]
          exact TimedMoves.send s l1 l2 u r hp h1 hg
        · simp at h
      · simp at h
    · simp at h
  | release i =>
    simp only [timedStep] at h
    split at h
    · simp at h
    split at h
    · rename_i u hget
      obtain ⟨l1, l2, h1, h2, h3⟩ := getElem?_decomp _ _ _ hget
      split at h
      · rename_i hp
        split at h
        · rename_i hg
          simp only [Option.some.injEq] at h
          subst h h2
          simp only [TimedState.setUnit, h3]
          exact TimedMoves.release s l1 l2 u  hp h1 hg
        · simp at h
      · rename_i hp
        split at h
        · rename_i hg
          simp only [Option.some.injEq] at h
          subst h h2
          simp only [TimedState.setUnit, h3]
          exact TimedMoves.panicRelease s l1 l2 u  hp h1 hg
        · simp at h
      · simp at h
    · simp at h
  | done i =>
    simp only [timedStep] at h
    split at h
    · simp at h
    split at h
    · rename_i u hget
      obtain ⟨l1, l2, h1, h2, h3⟩ := getElem?_decomp _ _ _ hget
      split at h
      · rename_i hp
        split at h
        · rename_i hg
          simp only [Option.some.injEq] at h
          subst h h2
          simp only [TimedState.setUnit, h3]
          exact TimedMoves.done s l1 l2 u  hp h1 hg
        · simp at h
      · rename_i hp
        split at h
        · rename_i hg
          simp only [Option.some.injEq] at h
          subst h h2
          simp only [TimedState.setUnit, h3]
          exact TimedMoves.panicDone s l1 l2 u  hp h1 hg
        · simp at h
      · simp at h
    · simp at h
  | close =>
    simp only [timedStep] at h
    split at h
    · simp at h
    split at h
    · rename_i hc
      simp only [Option.some.injEq] at h
      subst h
      exact TimedMoves.close s hc.1 hc.2
    · simp at h
  | recv =>
    simp only [timedStep] at h
    split at h
    · simp at h
    split at h
    · rename_i r rest hch hr
      split at h
      · rename_i hl
        simp only [Option.some.injEq] at h
        subst h
        exact TimedMoves.recv s r rest hch hr hl
      · simp at h
    · simp at h
  | body =>
    simp only [timedStep] at h
    split at h
    · simp at h
    split at h
    · rename_i r hr
      simp only [Option.some.injEq] at h
      subst h
      exact TimedMoves.body s r hr
    · simp at h
  | finish =>
    simp only [timedStep] at h
    split at h
    · simp at h
    split at h
    · rename_i hc
      simp only [Option.some.injEq] at h
      subst h
      exact TimedMoves.finish s hc.1 hc.2.1 hc.2.2.1 hc.2.2.2
    · simp at h
  | exit =>
    simp only [timedStep] at h
    split at h
    · simp at h
    split at h
    · simp only [Option.some.injEq] at h
      subst h
      exact TimedMoves.exit s
    · simp at h

/-! ### Invariants of the timed model -/

theorem forall_mem_replace {α : Type} (P : α → Prop) (l1 l2 : List α) (a b : α)
    (h : ∀ x ∈ l1 ++ a :: l2, P x) (hb : P b) : ∀ x ∈ l1 ++ b :: l2, P x := by
  intro x hx
  simp only [List.mem_append, List.mem_cons] at hx
  rcases hx with hx | hx | hx
  · exact h x (by simp [hx])
  · rw [hx]; exact hb
  · exact h x (by simp [hx])

theorem unitOK_mono (cfg : TimedConfig) (now now' : Int) (u : TimedUnit) (hle : now ≤ now')
    (h : UnitOK cfg now u) : UnitOK cfg now' u := by
  obtain ⟨h1, h2, h3, h4⟩ := h
  refine ⟨h1, ?_, h3, ?_⟩
  · intro hp
    obtain ⟨tAcq, ha, hb, hc⟩ := h2 hp
    exact ⟨tAcq, ha, hb, le_trans hc hle⟩
  · intro ctx hctx
    obtain ⟨tAcq, t1, ha, hb, hc, hd, he, hf⟩ := h4 ctx hctx
    exact ⟨tAcq, t1, ha, hb, hc, hd, le_trans he hle, hf⟩

theorem unitOK_phase (cfg : TimedConfig) (now : Int) (u : TimedUnit) (p : TimedPhase)
    (h : UnitOK cfg now u) (hu : u.phase ≠ TimedPhase.blocked) (hp : p ≠ TimedPhase.blocked)
    (hs : p.hasScope = true → u.phase.hasScope = true) :
    UnitOK cfg now { u with phase := p } := by
  obtain ⟨h1, h2, h3, h4⟩ := h
  refine ⟨?_, ?_, ?_, ?_⟩
  · intro hp'; exact absurd hp' hp
  · intro _; exact h2 hu
  · intro hp'; exact h3 (hs hp')
  · exact h4

theorem unitOK_acquire (cfg : TimedConfig) (now : Int) (u : TimedUnit)
    (h : UnitOK cfg now u) (hu : u.phase = TimedPhase.blocked) (hclock : cfg.t0 ≤ now) :
    UnitOK cfg now { u with phase := TimedPhase.acquired, slotAt := some now } := by
  obtain ⟨h1, h2, h3, h4⟩ := h
  refine ⟨?_, ?_, ?_, ?_⟩
  · intro hp'; simp at hp'
  · intro _; exact ⟨now, rfl, hclock, le_refl _⟩
  · intro hp'; simp at hp'
  · intro ctx hctx
    have := h1 hu
    simp only at hctx
    rw [this] at hctx
    simp at hctx

theorem unitOK_scope (cfg : TimedConfig) (now : Int) (u : TimedUnit)
    (h : UnitOK cfg now u) (hu : u.phase = TimedPhase.started) :
    UnitOK cfg now { u with
      phase := TimedPhase.scoped, scopeAt := some now,
      scope := some (collectorContext (globalContext cfg.t0 cfg.timeout) now
        cfg.collectorTimeout) } := by
  obtain ⟨h1, h2, h3, h4⟩ := h
  obtain ⟨tAcq, ha, hb, hc⟩ := h2 (by rw [hu]; simp)
  refine ⟨?_, ?_, ?_, ?_⟩
  · intro hp'; simp at hp'
  · intro _; exact ⟨tAcq, ha, hb, hc⟩
  · intro _; simp
  · intro ctx hctx
    simp only [Option.some.injEq] at hctx
    exact ⟨tAcq, now, ha, rfl, hb, hc, le_refl _, hctx.symm⟩

theorem timedInv_init (cfg : TimedConfig) : TimedInv cfg (timedInit cfg) := by
  have hunits : ∀ l : List Collector,
      (l.map TimedUnit.fresh).countP (fun u => u.phase.holdsSlot) = 0 ∧
      (l.map TimedUnit.fresh).countP (fun u => u.phase.hasStarted) = 0 ∧
      (l.map TimedUnit.fresh).countP (fun u => u.phase.handedOver) = 0 := by
    intro l
    induction l with
    | nil => simp
    | cons c l ih =>
      obtain ⟨i1, i2, i3⟩ := ih
      simp [List.countP_cons, i1, i2, i3, TimedUnit.fresh]
  obtain ⟨i1, i2, i3⟩ := hunits cfg.collectors
  refine ⟨?_, ?_, ?_, ?_, ?_, ?_⟩
  · simp [timedInit, i1]
  · simp [timedInit]
  · simp [timedInit, i2, MainState.init, startCalls]
  · simp [timedInit, i3, MainState.init, endCalls, pendingResults]
  · simp [timedInit]
  · intro u hu
    simp only [timedInit, List.mem_map] at hu
    obtain ⟨c, _, rfl⟩ := hu
    refine ⟨fun _ => rfl, ?_, ?_, ?_⟩
    · intro h; simp [TimedUnit.fresh] at h
    · intro h; simp [TimedUnit.fresh] at h
    · intro ctx h; simp [TimedUnit.fresh] at h

theorem timedInv_step (cfg : TimedConfig) (s s' : TimedState) (a : TimedAction)
    (hinv : TimedInv cfg s) (hm : TimedMoves cfg s a s') : TimedInv cfg s' := by
  obtain ⟨h1, h2, h3, h4, h5, h6⟩ := hinv
  cases hm with
  | tick d =>
    refine ⟨h1, h2, h3, h4, ?_, ?_⟩
    · show cfg.t0 ≤ s.now + (d : Int)
      omega
    · intro u hu
      exact unitOK_mono cfg s.now _ u (by show s.now ≤ s.now + (d : Int); omega) (h6 u hu)
  | acquire l1 l2 u hp hu hs =>
    rw [hu] at h1 h3 h4 h6
    simp [List.countP_append, List.countP_cons, hp, pendingResults] at h1 h3 h4
    have hold : UnitOK cfg s.now u := h6 u (by simp)
    refine ⟨?_, ?_, ?_, ?_, ?_, ?_⟩
    · simp [List.countP_append, List.countP_cons, h1]; omega
    · simpa using hs
    · simp [List.countP_append, List.countP_cons, h3]
    · simp [List.countP_append, List.countP_cons, pendingResults] at h4 ⊢; omega
    · simpa using h5
    · exact forall_mem_replace _ l1 l2 u _ h6 (unitOK_acquire cfg s.now u hold hp h5)
  | start l1 l2 u hp hu =>
    rw [hu] at h1 h3 h4 h6
    simp [List.countP_append, List.countP_cons, hp, pendingResults] at h1 h3 h4
    have hold : UnitOK cfg s.now u := h6 u (by simp)
    refine ⟨?_, ?_, ?_, ?_, ?_, ?_⟩
    · simp [List.countP_append, List.countP_cons, h1]
    · simpa using h2
    · simp [List.countP_append, List.countP_cons, startCalls] at h3 ⊢; omega
    · simp [List.countP_append, List.countP_cons, pendingResults, endCalls] at h4 ⊢; omega
    · simpa using h5
    · exact forall_mem_replace _ l1 l2 u _ h6 (unitOK_phase cfg s.now u _ hold (by simp [hp]) (by simp) (by simp [hp]))
  | scope l1 l2 u hp hu =>
    rw [hu] at h1 h3 h4 h6
    simp [List.countP_append, List.countP_cons, hp, pendingResults] at h1 h3 h4
    have hold : UnitOK cfg s.now u := h6 u (by simp)
    refine ⟨?_, ?_, ?_, ?_, ?_, ?_⟩
    · simp [List.countP_append, List.countP_cons, h1]
    · simpa using h2
    · simp [List.countP_append, List.countP_cons, h3]
    · simp [List.countP_append, List.countP_cons, pendingResults] at h4 ⊢; omega
    · simpa using h5
    · exact forall_mem_replace _ l1 l2 u _ h6 (unitOK_scope cfg s.now u hold hp)
  | collect l1 l2 u ret hp hu =>
    rw [hu] at h1 h3 h4 h6
    simp [List.countP_append, List.countP_cons, hp, pendingResults] at h1 h3 h4
    have hold : UnitOK cfg s.now u := h6 u (by simp)
    refine ⟨?_, ?_, ?_, ?_, ?_, ?_⟩
    · simp [List.countP_append, List.countP_cons, h1]
    · simpa using h2
    · simp [List.countP_append, List.countP_cons, h3]
    · simp [List.countP_append, List.countP_cons, pendingResults] at h4 ⊢; omega
    · simpa using h5
    · exact forall_mem_replace _ l1 l2 u _ h6 (unitOK_phase cfg s.now u _ hold (by simp [hp]) (by simp) (by simp [hp]))
  | panic l1 l2 u hp hu =>
    rw [hu] at h1 h3 h4 h6
    simp [List.countP_append, List.countP_cons, hp, pendingResults] at h1 h3 h4
    have hold : UnitOK cfg s.now u := h6 u (by simp)
    refine ⟨?_, ?_, ?_, ?_, ?_, ?_⟩
    · simp [List.countP_append, List.countP_cons, h1]
    · simpa using h2
    · simp [List.countP_append, List.countP_cons, h3]
    · simp [List.countP_append, List.countP_cons, pendingResults] at h4 ⊢; omega
    · simpa using h5
    · exact forall_mem_replace _ l1 l2 u _ h6 (unitOK_phase cfg s.now u _ hold (by simp [hp]) (by simp) (by simp [hp]))
  | send l1 l2 u r hp hu hcap =>
    rw [hu] at h1 h3 h4 h6
    simp [List.countP_append, List.countP_cons, hp, pendingResults] at h1 h3 h4
    have hold : UnitOK cfg s.now u := h6 u (by simp)
    refine ⟨?_, ?_, ?_, ?_, ?_, ?_⟩
    · simp [List.countP_append, List.countP_cons, h1]
    · simpa using h2
    · simp [List.countP_append, List.countP_cons, h3]
    · simp [List.countP_append, List.countP_cons, pendingResults] at h4 ⊢; omega
    · simpa using h5
    · exact forall_mem_replace _ l1 l2 u _ h6 (unitOK_phase cfg s.now u _ hold (by simp [hp]) (by simp) (by simp [hp]))
  | release l1 l2 u hp hu hs =>
    rw [hu] at h1 h3 h4 h6
    simp [List.countP_append, List.countP_cons, hp, pendingResults] at h1 h3 h4
    have hold : UnitOK cfg s.now u := h6 u (by simp)
    refine ⟨?_, ?_, ?_, ?_, ?_, ?_⟩
    · simp [List.countP_append, List.countP_cons, h1]
    · simp; omega
    · simp [List.countP_append, List.countP_cons, h3]
    · simp [List.countP_append, List.countP_cons, pendingResults] at h4 ⊢; omega
    · simpa using h5
    · exact forall_mem_replace _ l1 l2 u _ h6 (unitOK_phase cfg s.now u _ hold (by simp [hp]) (by simp) (by simp [hp]))
  | panicRelease l1 l2 u hp hu hs =>
    rw [hu] at h1 h3 h4 h6
    simp [List.countP_append, List.countP_cons, hp, pendingResults] at h1 h3 h4
    have hold : UnitOK cfg s.now u := h6 u (by simp)
    refine ⟨?_, ?_, ?_, ?_, ?_, ?_⟩
    · simp [List.countP_append, List.countP_cons, h1]
    · simp; omega
    · simp [List.countP_append, List.countP_cons, h3]
    · simp [List.countP_append, List.countP_cons, pendingResults] at h4 ⊢; omega
    · simpa using h5
    · exact forall_mem_replace _ l1 l2 u _ h6 (unitOK_phase cfg s.now u _ hold (by simp [hp]) (by simp) (by simp [hp]))
  | done l1 l2 u hp hu hw =>
    rw [hu] at h1 h3 h4 h6
    simp [List.countP_append, List.countP_cons, hp, pendingResults] at h1 h3 h4
    have hold : UnitOK cfg s.now u := h6 u (by simp)
    refine ⟨?_, ?_, ?_, ?_, ?_, ?_⟩
    · simp [List.countP_append, List.countP_cons, h1]
    · simpa using h2
    · simp [List.countP_append, List.countP_cons, h3]
    · simp [List.countP_append, List.countP_cons, pendingResults] at h4 ⊢; omega
    · simpa using h5
    · exact forall_mem_replace _ l1 l2 u _ h6 (unitOK_phase cfg s.now u _ hold (by simp [hp]) (by simp) (by simp [hp]))
  | panicDone l1 l2 u hp hu hw =>
    rw [hu] at h1 h3 h4 h6
    simp [List.countP_append, List.countP_cons, hp, pendingResults] at h1 h3 h4
    have hold : UnitOK cfg s.now u := h6 u (by simp)
    refine ⟨?_, ?_, ?_, ?_, ?_, ?_⟩
    · simp [List.countP_append, List.countP_cons, h1]
    · simpa using h2
    · simp [List.countP_append, List.countP_cons, h3]
    · simp [List.countP_append, List.countP_cons, pendingResults] at h4 ⊢; omega
    · simpa using h5
    · exact forall_mem_replace _ l1 l2 u _ h6 (unitOK_phase cfg s.now u _ hold (by simp [hp]) (by simp) (by simp [hp]))
  | close hw hc => exact ⟨h1, h2, h3, h4, h5, h6⟩
  | recv r rest hch hr hl =>
    refine ⟨h1, h2, h3, ?_, h5, h6⟩
    simp [pendingResults, hch, hr] at h4 ⊢
    omega
  | body r hr =>
    obtain ⟨t1, t2⟩ := processResult_tracker s.main r
    refine ⟨h1, h2, ?_, ?_, h5, h6⟩
    · simpa [t1] using h3
    · simp [pendingResults, hr, t2] at h4 ⊢
      omega
  | finish hc hch hr hl =>
    refine ⟨h1, h2, ?_, ?_, h5, h6⟩
    · simpa [startCalls, List.countP_append] using h3
    · simpa [endCalls, List.countP_append, pendingResults] using h4
  | exit => exact ⟨h1, h2, h3, h4, h5, h6⟩

theorem timedInv_run (cfg : TimedConfig) (acts : List TimedAction) (s s' : TimedState)
    (hinv : TimedInv cfg s) (h : timedRun cfg s acts = some s') : TimedInv cfg s' := by
  induction acts generalizing s with
  | nil =>
    simp only [timedRun, Option.some.injEq] at h
    subst h
    exact hinv
  | cons a acts ih =>
    simp only [timedRun] at h
    cases hs : timedStep cfg s a with
    | none => simp [hs] at h
    | some s1 =>
      simp only [hs] at h
      exact ih s1 (timedInv_step cfg s s1 a hinv (timedStep_moves cfg s s1 a hs)) h

theorem timedInv_exec (cfg : TimedConfig) (acts : List TimedAction) (s : TimedState)
    (h : timedExec cfg acts = some s) : TimedInv cfg s :=
  timedInv_run cfg acts (timedInit cfg) s (timedInv_init cfg) h

/-! ### The running progress state -/

theorem countP_timedPhases (l : List TimedUnit) :
    l.countP (fun u => u.phase.hasStarted)
      = l.countP (fun u => u.phase.collecting) + l.countP (fun u => u.phase.handedOver)
        + l.countP (fun u => u.phase.hasPanicked) ∧
    l.countP (fun u => u.phase.collecting) ≤ l.countP (fun u => u.phase.holdsSlot) := by
  induction l with
  | nil => simp
  | cons u l ih =>
    obtain ⟨ih1, ih2⟩ := ih
    cases hp : u.phase <;> simp [List.countP_cons, ih1, hp] <;> omega

/-- C4, as the claim states it, fails: under one slot, the result loop has received the
result of `net` and not yet called `tracker.Success` when `net` frees the slot and `proc`
is started; two collectors are then in the running state, one slot is held and `resultsCh`
is empty. -/
theorem running_bound_counterexample :
    timedTwo.concurrency = 1 ∧
    (timedExec timedTwo lagTrace).map
      (fun s => (runningCount s, slotsHeld s, s.resultsCh.length)) = some (2, 1, 0) := by
  decide

/-- C4 (amended): in every state the orchestration reaches, the units holding a slot are
as many as `semaphore` holds elements and at most the concurrency limit, so at most that
many units are between `tracker.Start` and the send of their result; the collectors in the
running progress state are those units, plus the results sent and not yet given to
`tracker.Success` or `tracker.Fail` (in `resultsCh` or in the loop variable), plus the
units whose call to `Collect` panicked; without a panic they are at most the concurrency
limit plus the length of `resultsCh` plus one. -/
theorem running_bound (cfg : TimedConfig) (acts : List TimedAction) (s : TimedState)
    (hrun : timedExec cfg acts = some s) :
    slotsHeld s = s.semaphore ∧
    slotsHeld s ≤ cfg.concurrency ∧
    collectingCount s ≤ cfg.concurrency ∧
    runningCount s = collectingCount s + pendingResults s + panickedCount s ∧
    (panickedCount s = 0 → runningCount s ≤ cfg.concurrency + s.resultsCh.length + 1) := by
  obtain ⟨h1, h2, h3, h4, h5, h6⟩ := timedInv_exec cfg acts s hrun
  obtain ⟨c1, c2⟩ := countP_timedPhases s.units
  have hrc : runningCount s = collectingCount s + pendingResults s + panickedCount s := by
    unfold runningCount collectingCount panickedCount
    omega
  have hpend : pendingResults s ≤ s.resultsCh.length + 1 := by
    unfold pendingResults
    split <;> omega
  refine ⟨?_, ?_, ?_, hrc, ?_⟩
  · unfold slotsHeld; omega
  · unfold slotsHeld; omega
  · unfold collectingCount; omega
  · intro hp
    rw [hrc, hp]
    unfold collectingCount
    omega

/-- The interleaving `lagTrace`: one slot held, two collectors running, of which one is
between `tracker.Start` and its send and one is in the loop variable. -/
theorem running_bound_witness :
    ∃ s, timedExec timedTwo lagTrace = some s ∧ slotsHeld s ≤ 1 ∧
      runningCount s = collectingCount s + pendingResults s + panickedCount s ∧
      runningCount s ≤ 1 + s.resultsCh.length + 1 := by
  have hsome : (timedExec timedTwo lagTrace).isSome = true := by decide
  obtain ⟨s, hs⟩ := Option.isSome_iff_exists.1 hsome
  have hp : (timedExec timedTwo lagTrace).map panickedCount = some 0 := by decide
  rw [hs] at hp
  have h := running_bound timedTwo lagTrace s hs
  exact ⟨s, hs, h.2.1, h.2.2.2.1, h.2.2.2.2 (by simpa using hp)⟩

/-! ### The deadline of a collector's context -/

/-- The deadlines of the two contexts, as functions of the instants at which they are
made, when the timeouts fit an `int64` of nanoseconds. -/
theorem deadline_core (t0 t1 timeout collectorTimeout : Int)
    (hT : -9223372036 ≤ timeout ∧ timeout ≤ 9223372036)
    (hC : -9223372036 ≤ collectorTimeout ∧ collectorTimeout ≤ 9223372036) :
    (collectorContext (globalContext t0 timeout) t1 collectorTimeout).parent
      = some (globalContext t0 timeout) ∧
    (∀ now, (collectorContext (globalContext t0 timeout) t1 collectorTimeout).expired now = true
      ↔ min (t0 + timeout * Second) (t1 + collectorTimeout * Second) ≤ now) ∧
    (∀ now, (globalContext t0 timeout).expired now = true ↔ t0 + timeout * Second ≤ now) ∧
    (∀ now, (globalContext t0 timeout).expired now = true →
      (collectorContext (globalContext t0 timeout) t1 collectorTimeout).expired now = true) ∧
    (∀ t2 now, t1 + collectorTimeout * Second ≤ now → now < t0 + timeout * Second →
      now < t2 + collectorTimeout * Second →
      (collectorContext (globalContext t0 timeout) t1 collectorTimeout).expired now = true ∧
      (collectorContext (globalContext t0 timeout) t2 collectorTimeout).expired now = false ∧
      (globalContext t0 timeout).expired now = false) := by
  have hD := durationOfSeconds_eq timeout hT.1 hT.2
  have hDc := durationOfSeconds_eq collectorTimeout hC.1 hC.2
  have hg : globalContext t0 timeout
      = Context.timer Context.background (t0 + timeout * Second) := by
    unfold globalContext WithTimeout WithDeadline
    rw [hD]
    rfl
  have hc : ∀ t, collectorContext (globalContext t0 timeout) t collectorTimeout
      = if t0 + timeout * Second < t + collectorTimeout * Second then
          Context.withCancel (globalContext t0 timeout)
        else Context.timer (globalContext t0 timeout) (t + collectorTimeout * Second) := by
    intro t
    unfold collectorContext WithTimeout WithDeadline
    rw [hDc, hg]
    rfl
  have hge : ∀ now, (globalContext t0 timeout).expired now = true
      ↔ t0 + timeout * Second ≤ now := by
    intro now
    rw [hg]
    simp [Context.expired]
  have hce : ∀ t now, (collectorContext (globalContext t0 timeout) t collectorTimeout).expired now
      = true ↔ min (t0 + timeout * Second) (t + collectorTimeout * Second) ≤ now := by
    intro t now
    rw [hc t]
    by_cases hlt : t0 + timeout * Second < t + collectorTimeout * Second
    · rw [if_pos hlt, min_eq_left (le_of_lt hlt)]
      show (globalContext t0 timeout).expired now = true ↔ _
      exact hge now
    · rw [if_neg hlt, min_eq_right (le_of_not_lt hlt)]
      show (decide (t + collectorTimeout * Second ≤ now)
        || (globalContext t0 timeout).expired now) = true ↔ _
      rw [Bool.or_eq_true, decide_eq_true_eq, hge]
      constructor
      · rintro (h | h)
        · exact h
        · omega
      · intro h; exact Or.inl h
  refine ⟨?_, hce t1, hge, ?_, ?_⟩
  · rw [hc t1]
    by_cases hlt : t0 + timeout * Second < t1 + collectorTimeout * Second <;>
      simp [hlt, Context.parent]
  · intro now h
    rw [hce t1]
    exact le_trans (min_le_left _ _) ((hge now).1 h)
  · intro t2 now h1 h2 h3
    refine ⟨?_, ?_, ?_⟩
    · rw [hce t1]
      exact le_trans (min_le_right _ _) h1
    · cases hx : (collectorContext (globalContext t0 timeout) t2 collectorTimeout).expired now with
      | false => rfl
      | true =>
        have := (hce t2 now).1 hx
        rcases min_le_iff.1 this with h | h <;> omega
    · cases hx : (globalContext t0 timeout).expired now with
      | false => rfl
      | true =>
        have := (hge now).1 hx
        omega


/-- C9 (amended): for timeouts of at most 9223372036 seconds in absolute value and every
unit in every state the orchestration reaches: once the unit is past line 136 it has a
context, the one passed to `Collect`; that context was made at an instant `t1` at or after
the instant at which the unit acquired its slot, itself at or after the instant `t0` of
the global context; it is derived from the global context and is expired exactly from the
earlier of the global deadline (`t0` plus the global timeout) and the unit's own deadline
(`t1` plus the collector timeout); the global context is expired exactly from the global
deadline, which expires every collector context with it; and between a unit's own deadline
and the global one, that unit's context is expired while the global context and the
context of a unit whose own deadline has not come are not. -/
theorem collector_deadline (cfg : TimedConfig)
    (hT : -9223372036 ≤ cfg.timeout ∧ cfg.timeout ≤ 9223372036)
    (hC : -9223372036 ≤ cfg.collectorTimeout ∧ cfg.collectorTimeout ≤ 9223372036)
    (acts : List TimedAction) (s : TimedState) (hrun : timedExec cfg acts = some s)
    (i : Nat) (u : TimedUnit) (hu : s.units[i]? = some u) :
    (u.phase.hasScope = true → u.scope ≠ none) ∧
    (∀ ctx : Context, u.scope = some ctx →
      ∃ tAcq t1 : Int, u.slotAt = some tAcq ∧ u.scopeAt = some t1 ∧
        cfg.t0 ≤ tAcq ∧ tAcq ≤ t1 ∧ t1 ≤ s.now ∧
        ctx.parent = some (globalContext cfg.t0 cfg.timeout) ∧
        (∀ now, ctx.expired now = true
          ↔ min (cfg.t0 + cfg.timeout * Second) (t1 + cfg.collectorTimeout * Second) ≤ now) ∧
        (∀ now, (globalContext cfg.t0 cfg.timeout).expired now = true
          ↔ cfg.t0 + cfg.timeout * Second ≤ now) ∧
        (∀ now, (globalContext cfg.t0 cfg.timeout).expired now = true →
          ctx.expired now = true) ∧
        (∀ (j : Nat) (u' : TimedUnit) (ctx' : Context) (t1' : Int), s.units[j]? = some u' → u'.scope = some ctx' →
          u'.scopeAt = some t1' →
          ∀ now, t1 + cfg.collectorTimeout * Second ≤ now →
            now < cfg.t0 + cfg.timeout * Second →
            now < t1' + cfg.collectorTimeout * Second →
            ctx.expired now = true ∧ ctx'.expired now = false ∧
            (globalContext cfg.t0 cfg.timeout).expired now = false)) := by
  have hinv := timedInv_exec cfg acts s hrun
  obtain ⟨l1, l2, hsplit, _, _⟩ := getElem?_decomp _ _ _ hu
  obtain ⟨_, _, k3, k4⟩ := hinv.unitOK u (by simp [hsplit])
  refine ⟨k3, ?_⟩
  intro ctx hctx
  obtain ⟨tAcq, t1, ha, hb, hc, hd, he, hf⟩ := k4 ctx hctx
  obtain ⟨d1, d2, d3, d4, d5⟩ := deadline_core cfg.t0 t1 cfg.timeout cfg.collectorTimeout hT hC
  subst hf
  refine ⟨tAcq, t1, ha, hb, hc, hd, he, d1, d2, d3, d4, ?_⟩
  intro j u' ctx' t1' hu' hctx' hat' now n1 n2 n3
  obtain ⟨l1', l2', hsplit', _, _⟩ := getElem?_decomp _ _ _ hu'
  obtain ⟨_, _, _, k4'⟩ := hinv.unitOK u' (by simp [hsplit'])
  obtain ⟨tAcq', t1'', _, hb', _, _, _, hf'⟩ := k4' ctx' hctx'
  rw [hat'] at hb'
  simp only [Option.some.injEq] at hb'
  subst hb' hf'
  exact d5 t1' now n1 n2 n3

/-- The interleaving `waitTrace`: `proc` gets the slot at the instant 5 s, when `net` frees
it, and makes its context then; that context is expired from the instant 65 s, not before. -/
theorem collector_deadline_witness :
    ∃ s u ctx, timedExec timedTwo waitTrace = some s ∧ s.units[1]? = some u ∧
      u.slotAt = some 5000000000 ∧ u.scope = some ctx ∧
      ctx.expired 65000000000 = true ∧ ctx.expired 64999999999 = false := by
  have hsome : (timedExec timedTwo waitTrace).isSome = true := by decide
  obtain ⟨s, hs⟩ := Option.isSome_iff_exists.1 hsome
  have hu : ((timedExec timedTwo waitTrace).bind (fun s => s.units[1]?)).isSome = true := by
    decide
  rw [hs] at hu
  obtain ⟨u, hu⟩ := Option.isSome_iff_exists.1 hu
  simp only [Option.some_bind] at hu
  have hslot : (timedExec timedTwo waitTrace).bind
      (fun s => (s.units[1]?).bind (fun u => u.slotAt)) = some 5000000000 := by decide
  have hat : (timedExec timedTwo waitTrace).bind
      (fun s => (s.units[1]?).bind (fun u => u.scopeAt)) = some 5000000000 := by decide
  have hsc : ((timedExec timedTwo waitTrace).bind
      (fun s => (s.units[1]?).bind (fun u => u.scope))).isSome = true := by decide
  rw [hs] at hslot hat hsc
  simp only [Option.some_bind, hu] at hslot hat hsc
  obtain ⟨ctx, hctx⟩ := Option.isSome_iff_exists.1 hsc
  have h := (collector_deadline timedTwo (by decide) (by decide) waitTrace s hs 1 u hu).2
    ctx hctx
  obtain ⟨tAcq, t1, _, hb, _, _, _, _, hexp, _⟩ := h
  rw [hat] at hb
  simp only [Option.some.injEq] at hb
  subst hb
  refine ⟨s, u, ctx, hs, hu, hslot, hctx, ?_, ?_⟩
  · exact (hexp 65000000000).2 (by decide)
  · cases hx : ctx.expired 64999999999 with
    | false => rfl
    | true => exact absurd ((hexp 64999999999).1 hx) (by decide)
end Triagectl
